import Mathlib

/-!
# go-cypherdsl: the boolean-condition builder (`condition.go`)

A shallow embedding of `ConditionConfig.ToString`, `NewCondition` and the
`ConditionBuilder` chain, followed by theorems about them.

Modelling conventions
* Go `string` values are Lean `String`s (valid UTF-8 text).  The `strings`
  helpers used by the source are defined on the character lists.
* A Go `error` is `Option GoError`; `none` is `nil`, and a non-nil error is
  identified by the text its `Error()` method returns.
* `interface{}` values are `Option Value` (`none` is `nil`), also as elements
  of a slice; slices that the source compares with `nil` are `Option (List _)`.
* Methods are modelled for a receiver that is not nil.
* Pointers are `Option Ptr` (`none` is `nil`).  The nodes a builder allocates
  live in two lists held next to the builder's own fields; a pointer is an index
  into the list of its node type and allocation appends to the list.
* A Go call that does not return (nil dereference, a walk that never reaches the
  end of a cyclic chain) is `none` in the `Option` wrapped around a result.
-/

namespace CypherDSL

/-! ## Errors and strings -/

/-- Non-nil Go error, identified by the text of `Error()`. -/
structure GoError where
  msg : String
deriving DecidableEq

/-- Go `error` interface value; `none` is `nil`. -/
abbrev error := Option GoError

/-- Go `errors.New`. -/
def errors.New (text : String) : error := some ⟨text⟩

/-- Go `strings.HasSuffix`. -/
def strings.HasSuffix (s suffix : String) : Bool :=
  suffix.data.isSuffixOf s.data

/-- Go `strings.TrimSuffix`: `s` without the trailing `suffix`, or `s` itself
when it does not end in `suffix`. -/
def strings.TrimSuffix (s suffix : String) : String :=
  if strings.HasSuffix s suffix then
    String.mk (s.data.take (s.data.length - suffix.data.length))
  else s

/-- Go `strings.Trim`: `s` with all leading and trailing characters contained in
`cutset` removed. -/
def strings.Trim (s cutset : String) : String :=
  String.mk
    (((s.data.dropWhile fun ch => cutset.data.contains ch).reverse.dropWhile
      fun ch => cutset.data.contains ch).reverse)

/-! ## Predicate configuration -/

/-- Dynamic values stored in an `interface{}` that is not nil. -/
inductive Value where
  | int (i : Int)
  | str (s : String)
  | bool (b : Bool)
  | other (typeName : String)
deriving DecidableEq

/-- The type `WhereQuery` is a Go string type declared outside `condition.go`. -/
abbrev WhereQuery := String

/-- Modelled from the spec: `WhereQuery.ToString` is declared outside
`condition.go`; the rendered text of a link is the text of the query itself. -/
def WhereQuery.ToString (w : WhereQuery) : String := w

/-- The constant `InOperator`. -/
def InOperator : String := "IN"

/-- The struct `ConditionConfig`; `BooleanOperator` is a Go string type. -/
structure ConditionConfig where
  ConditionOperator : String := ""
  ConditionFunction : String := ""
  Name : String := ""
  Field : String := ""
  Label : String := ""
  FieldManipulationFunction : String := ""
  Check : Option Value := none
  CheckName : String := ""
  CheckField : String := ""
  CheckLabel : String := ""
  CheckSlice : Option (List (Option Value)) := none
  NegateCondition : Bool := false
deriving DecidableEq

/-- Modelled from the spec: `cypherizeInterface` is declared outside
`condition.go`.  Strings are quoted, numeric and boolean scalars are rendered in
their native textual form, unsupported value types are an error.  The spec does
not fix the quote character; the double quote is used here. -/
def cypherizeInterface : Option Value → String × error
  | some (.int i) => (toString i, none)
  | some (.str s) => ("\"" ++ s ++ "\"", none)
  | some (.bool b) => (if b then "true" else "false", none)
  | some (.other t) => ("", errors.New ("invalid type " ++ t))
  | none => ("", errors.New "invalid type nil")

/-- The loop of `ToString` over `CheckSlice` (lines 366-373): `q` grows by the
rendered element and a comma; the first rendering error is returned. -/
def ConditionConfig.ToString.sliceLoop (lit : Option Value → String × error) :
    List (Option Value) → String → String × error
  | [], q => (q, none)
  | val :: rest, q =>
    match lit val with
    | (_, some err) => ("", some err)
    | (str, none) => sliceLoop lit rest (q ++ (str ++ ","))

/-- The part of `ToString` from the `InOperator` test to the end
(lines 350-390), with the text built so far in `query`. -/
def ConditionConfig.ToString.checks (lit : Option Value → String × error)
    (condition : ConditionConfig) (query : String) : String × error :=
  if condition.ConditionOperator = InOperator then
    match condition.CheckSlice with
    | none => ("", errors.New "slice can not be nil")
    | some slice =>
      if condition.Check ≠ none then
        ("", errors.New "check should not be defined when using in operator")
      else if slice.length = 0 then
        ("", errors.New "slice should not be nil")
      else
        match ConditionConfig.ToString.sliceLoop lit slice "[" with
        | (_, some err) => ("", some err)
        | (q, none) => (query ++ (" " ++ strings.TrimSuffix q "," ++ "]"), none)
  else
    match condition.Check with
    | some v =>
      match lit (some v) with
      | (_, some err) => ("", some err)
      | (str, none) => (query ++ (" " ++ str), none)
    | none =>
      if condition.CheckName ≠ "" ∧ condition.CheckField ≠ "" then
        (query ++ (" " ++ (condition.CheckName ++ "." ++ condition.CheckField)), none)
      else
        ("", errors.New "one of (Check) or (CheckName, CheckField) must be specified")

/-- The part of `ToString` after the field text is built (lines 328-348), with
the text built so far in `query`. -/
def ConditionConfig.ToString.operators (lit : Option Value → String × error)
    (condition : ConditionConfig) (query : String) : String × error :=
  let query :=
    if condition.FieldManipulationFunction ≠ "" then
      query ++ (condition.FieldManipulationFunction ++ "(" ++ query ++ ")")
    else query
  if condition.ConditionOperator = "" ∧ condition.ConditionFunction = "" then
    ("", errors.New "one of ConditionOperator or ConditionFunction must be specified")
  else if condition.ConditionOperator ≠ "" ∧ condition.ConditionFunction ≠ "" then
    ("", errors.New "only one of ConditionOperator or ConditionFunction can be specified")
  else if condition.ConditionOperator ≠ "" then
    ConditionConfig.ToString.checks lit condition (query ++ (" " ++ condition.ConditionOperator))
  else if condition.ConditionFunction ≠ "" then
    if condition.NegateCondition then
      ("NOT " ++ condition.ConditionFunction ++ "(" ++ strings.Trim query "NOT " ++ ")", none)
    else
      (condition.ConditionFunction ++ "(" ++ query ++ ")", none)
  else
    ConditionConfig.ToString.checks lit condition query

/-- The method `ConditionConfig.ToString`; `lit` is the literal renderer
`cypherizeInterface`, which is declared outside `condition.go`. -/
def ConditionConfig.ToString (lit : Option Value → String × error)
    (condition : ConditionConfig) : String × error :=
  if condition.Name = "" ∧ condition.Field = "" ∧ condition.Label = "" ∧
      condition.FieldManipulationFunction = "" then
    ("", errors.New "all of Name, Field, Function, and Label must be specified")
  else if condition.Field ≠ "" ∧ condition.Label ≠ "" ∧
      condition.FieldManipulationFunction ≠ "" then
    ("", errors.New "not all of Field, Label, and FieldManipulationFunction can be specified")
  else
    let query := ""
    let query := if condition.NegateCondition then query ++ "NOT " else query
    if condition.Field ≠ "" then
      ConditionConfig.ToString.operators lit condition
        (query ++ (condition.Name ++ "." ++ condition.Field))
    else if condition.Label ≠ "" then
      (condition.Name ++ ":" ++ condition.Label, none)
    else
      ConditionConfig.ToString.operators lit condition (query ++ condition.Name)

/-- The function `NewCondition`; a nil `*ConditionConfig` is `none`. -/
def NewCondition (lit : Option Value → String × error)
    (condition : Option ConditionConfig) : WhereQuery × error :=
  match condition with
  | none => ("", errors.New "condition can not be nil")
  | some cfg =>
    match cfg.ToString lit with
    | (_, some err) => ("", some err)
    | (str, none) => (str, none)

/-! ## The condition chain -/

/-- Address of a node in the list of its node type. -/
abbrev Ptr := Nat

/-- The struct `conditionNode`; `Next` points to an `operatorNode`. -/
structure conditionNode where
  Condition : WhereQuery
  Next : Option Ptr
deriving DecidableEq

/-- The struct `operatorNode`; `Query` points to a `conditionNode`. -/
structure operatorNode where
  First : Bool
  Condition : String
  Query : Option Ptr
deriving DecidableEq

/-- The struct `ConditionBuilder` together with the nodes allocated for it:
`Start` indexes `operatorNodes`, `Current` indexes `conditionNodes`. -/
structure ConditionBuilder where
  Start : Option Ptr
  Current : Option Ptr
  errors : Option (List error)
  operatorNodes : List operatorNode
  conditionNodes : List conditionNode
deriving DecidableEq

/-- Allocation `&conditionNode{...}`: the new node and its address. -/
def ConditionBuilder.newConditionNode (c : ConditionBuilder) (n : conditionNode) :
    ConditionBuilder × Ptr :=
  ({ c with conditionNodes := c.conditionNodes ++ [n] }, c.conditionNodes.length)

/-- Allocation `&operatorNode{...}`: the new node and its address. -/
def ConditionBuilder.newOperatorNode (c : ConditionBuilder) (n : operatorNode) :
    ConditionBuilder × Ptr :=
  ({ c with operatorNodes := c.operatorNodes ++ [n] }, c.operatorNodes.length)

/-- The method `addError`. -/
def ConditionBuilder.addError (c : ConditionBuilder) (e : error) : ConditionBuilder :=
  match c.errors with
  | none => { c with errors := some [e] }
  | some es => { c with errors := some (es ++ [e]) }

/-- The method `hasErrors`. -/
def ConditionBuilder.hasErrors (c : ConditionBuilder) : Bool :=
  match c.errors with
  | none => false
  | some es => decide (es.length > 0)

/-- The method `addNext`: the updated builder and the returned error.  The
result is `none` when the Go code dereferences a nil `Current` (or an address
that holds no node). -/
def ConditionBuilder.addNext (c : ConditionBuilder) (node : Option Ptr) :
    Option (ConditionBuilder × error) :=
  match node with
  | none => some (c, errors.New "node can not be nil")
  | some p =>
    match c.operatorNodes[p]? with
    | none => none
    | some n =>
      match n.Query with
      | none => some (c, errors.New "next can not be nil")
      | some q =>
        match c.Start with
        | none => some ({ c with Start := some p, Current := some q }, none)
        | some _ =>
          match c.Current with
          | none => none
          | some cur =>
            match c.conditionNodes[cur]? with
            | none => none
            | some cn =>
              some ({ c with
                      conditionNodes := c.conditionNodes.set cur { cn with Next := some p }
                      Current := some q }, none)

/-- The function `C`, which starts a chain. -/
def C (lit : Option Value → String × error) (condition : Option ConditionConfig) :
    Option ConditionBuilder :=
  match NewCondition lit condition with
  | (_, some err) =>
    some { Start := none, Current := none, errors := some [some err],
           operatorNodes := [], conditionNodes := [] }
  | (wq, none) =>
    let cond : ConditionBuilder :=
      { Start := none, errors := none, Current := none,
        operatorNodes := [], conditionNodes := [] }
    let (cond, query) := cond.newConditionNode { Condition := wq, Next := none }
    let (cond, node) := cond.newOperatorNode { First := true, Condition := "", Query := some query }
    match cond.addNext (some node) with
    | none => none
    | some (cond, some err) => some (cond.addError (some err))
    | some (cond, none) => some cond

/-- The method `addNestedCondition`. -/
def ConditionBuilder.addNestedCondition (c : ConditionBuilder) (query : WhereQuery)
    (err : error) (condType : String) : Option ConditionBuilder :=
  if c.hasErrors then some c
  else
    match err with
    | some e => some (c.addError (some e))
    | none =>
      let (c, q) := c.newConditionNode { Condition := "(" ++ query ++ ")", Next := none }
      let (c, node) := c.newOperatorNode { First := false, Condition := condType, Query := some q }
      match c.addNext (some node) with
      | none => none
      | some (c, some err) => some (c.addError (some err))
      | some (c, none) => some c

/-- The method `addCondition`. -/
def ConditionBuilder.addCondition (lit : Option Value → String × error) (c : ConditionBuilder)
    (condition : Option ConditionConfig) (condType : String) : Option ConditionBuilder :=
  if c.hasErrors then some c
  else
    match NewCondition lit condition with
    | (_, some err) => some (c.addError (some err))
    | (wq, none) =>
      let (c, q) := c.newConditionNode { Condition := wq, Next := none }
      let (c, node) := c.newOperatorNode { First := false, Condition := condType, Query := some q }
      match c.addNext (some node) with
      | none => none
      | some (c, some err) => some (c.addError (some err))
      | some (c, none) => some c

/-- The method `And`. -/
def ConditionBuilder.And (lit : Option Value → String × error) (c : ConditionBuilder)
    (condition : Option ConditionConfig) : Option ConditionBuilder :=
  c.addCondition lit condition "AND"

/-- The method `Or`. -/
def ConditionBuilder.Or (lit : Option Value → String × error) (c : ConditionBuilder)
    (condition : Option ConditionConfig) : Option ConditionBuilder :=
  c.addCondition lit condition "OR"

/-- The method `Xor`. -/
def ConditionBuilder.Xor (lit : Option Value → String × error) (c : ConditionBuilder)
    (condition : Option ConditionConfig) : Option ConditionBuilder :=
  c.addCondition lit condition "XOR"

/-- The method `Not`. -/
def ConditionBuilder.Not (lit : Option Value → String × error) (c : ConditionBuilder)
    (condition : Option ConditionConfig) : Option ConditionBuilder :=
  c.addCondition lit condition "NOT"

/-- The method `AndNot`. -/
def ConditionBuilder.AndNot (lit : Option Value → String × error) (c : ConditionBuilder)
    (condition : Option ConditionConfig) : Option ConditionBuilder :=
  c.addCondition lit condition "AND NOT"

/-- The method `AndNested`. -/
def ConditionBuilder.AndNested (c : ConditionBuilder) (query : WhereQuery) (err : error) :
    Option ConditionBuilder :=
  c.addNestedCondition query err "AND"

/-- The method `OrNested`. -/
def ConditionBuilder.OrNested (c : ConditionBuilder) (query : WhereQuery) (err : error) :
    Option ConditionBuilder :=
  c.addNestedCondition query err "OR"

/-- The method `XorNested`. -/
def ConditionBuilder.XorNested (c : ConditionBuilder) (query : WhereQuery) (err : error) :
    Option ConditionBuilder :=
  c.addNestedCondition query err "XOR"

/-- The method `NotNested`. -/
def ConditionBuilder.NotNested (c : ConditionBuilder) (query : WhereQuery) (err : error) :
    Option ConditionBuilder :=
  c.addNestedCondition query err "NOT"

/-- The method `AndNotNested`. -/
def ConditionBuilder.AndNotNested (c : ConditionBuilder) (query : WhereQuery) (err : error) :
    Option ConditionBuilder :=
  c.addNestedCondition query err "AND NOT"

/-- The first loop of `Build` (lines 188-190): `errStr` grows by each message and
a semicolon.  Calling `Error()` on a nil element does not return. -/
def ConditionBuilder.Build.errLoop : List error → String → Option String
  | [], errStr => some errStr
  | none :: _, _ => none
  | some e :: rest, errStr => errLoop rest (errStr ++ (e.msg ++ ";"))

/-- The second loop of `Build` (lines 207-224), started at node `i` with the text
built so far in `query`.  Each iteration uses one unit of `fuel`; the result is
`none` when the fuel runs out or an address holds no node. -/
def ConditionBuilder.Build.loop (c : ConditionBuilder) :
    Nat → Option Ptr → String → Option String
  | 0, _, _ => none
  | fuel + 1, i, query =>
    match i with
    | none => some query
    | some p =>
      match c.operatorNodes[p]? with
      | none => none
      | some node =>
        match node.Query with
        | none => some query
        | some qp =>
          match c.conditionNodes[qp]? with
          | none => none
          | some cn =>
            let t := if node.First then "" else "" ++ (node.Condition ++ " ")
            loop c fuel cn.Next (query ++ (t ++ cn.Condition.ToString ++ " "))

/-- The method `Build`.  The walk over the chain gets one unit of fuel more than
there are operator nodes: a walk that takes more steps than that has visited some
node twice, and the Go loop, whose next step depends on the node alone, then
never ends. -/
def ConditionBuilder.Build (c : ConditionBuilder) : Option (WhereQuery × error) :=
  if c.hasErrors then
    match ConditionBuilder.Build.errLoop (c.errors.getD []) "" with
    | none => none
    | some errStr =>
      some ("", some ⟨"(" ++ Nat.repr (c.errors.getD []).length ++ ") errors occurred: " ++
        strings.TrimSuffix errStr ";"⟩)
  else
    match c.Start with
    | none => some ("", errors.New "no condition defined")
    | some _ =>
      match ConditionBuilder.Build.loop c (c.operatorNodes.length + 1) c.Start "" with
      | none => none
      | some query => some (strings.TrimSuffix query " ", none)

/-! ## Sequences of continuation operations -/

/-- The five boolean operators a continuation method is named after. -/
inductive Operator where
  | And
  | Or
  | Xor
  | Not
  | AndNot
deriving DecidableEq

/-- The keyword of an operator, as the specification lists them. -/
def Operator.keyword : Operator → String
  | .And => "AND"
  | .Or => "OR"
  | .Xor => "XOR"
  | .Not => "NOT"
  | .AndNot => "AND NOT"

/-- One call of a continuation method of the interface `ConditionOperator`, with
its arguments: `plain .And cfg` is `And(cfg)`, `nested .And q err` is
`AndNested(q, err)`, and so on. -/
inductive Continuation where
  | plain (op : Operator) (condition : Option ConditionConfig)
  | nested (op : Operator) (query : WhereQuery) (err : error)
deriving DecidableEq

/-- The call described by a `Continuation`, made on the builder `c`. -/
def Continuation.call (lit : Option Value → String × error) (c : ConditionBuilder) :
    Continuation → Option ConditionBuilder
  | .plain .And condition => c.And lit condition
  | .plain .Or condition => c.Or lit condition
  | .plain .Xor condition => c.Xor lit condition
  | .plain .Not condition => c.Not lit condition
  | .plain .AndNot condition => c.AndNot lit condition
  | .nested .And query err => c.AndNested query err
  | .nested .Or query err => c.OrNested query err
  | .nested .Xor query err => c.XorNested query err
  | .nested .Not query err => c.NotNested query err
  | .nested .AndNot query err => c.AndNotNested query err

/-- The fluent chain `c.op1(..).op2(..)...`, calls made left to right; a call
that does not return ends the chain. -/
def chain (lit : Option Value → String × error) :
    Option ConditionBuilder → List Continuation → Option ConditionBuilder
  | c, [] => c
  | c, op :: rest => chain lit (c.bind fun b => Continuation.call lit b op) rest

/-- The text of a chain as the specification describes it: the first rendered
condition, then for every later link a space, its keyword, a space and its
rendered condition. -/
def chainText (first : String) (links : List (String × String)) : String :=
  first ++ String.join (links.map fun l => " " ++ l.1 ++ " " ++ l.2)

/-- Shape of a builder without errors whose chain holds `links` (keyword and
text of each link, the first link included): node `i` of either list belongs to
link `i`, only node 0 is marked `First`, every condition node points to the next
operator node, and `Current` is the condition node of the last link. -/
structure ChainInv (c : ConditionBuilder) (links : List (String × String)) : Prop where
  errors_nil : c.errors = none
  nonempty : 0 < links.length
  start : c.Start = some 0
  current : c.Current = some (links.length - 1)
  ops_length : c.operatorNodes.length = links.length
  conds_length : c.conditionNodes.length = links.length
  op_at : ∀ (i : Nat) (l : String × String), links[i]? = some l →
    c.operatorNodes[i]? =
      some (operatorNode.mk (decide (i = 0)) l.1 (some i))
  cond_at : ∀ (i : Nat) (l : String × String), links[i]? = some l →
    c.conditionNodes[i]? =
      some (conditionNode.mk l.2 (if i + 1 < links.length then some (i + 1) else none))

/-! ## Example configurations -/

/-- A configuration with Name "a", Field "x" and Label "Person". -/
def labelWithFieldConfig : ConditionConfig :=
  { Name := "a", Field := "x", Label := "Person" }

/-- A comparison with both a check value and a (CheckName, CheckField) pair. -/
def checkAndPairConfig : ConditionConfig :=
  { Name := "a", Field := "age", ConditionOperator := ">", Check := some (.int 30),
    CheckName := "b", CheckField := "age" }

/-- The comparison `name.field = value` with an integer value. -/
def equalsConfig (name field : String) (value : Int) : ConditionConfig :=
  { Name := name, Field := field, ConditionOperator := "=", Check := some (.int value) }

/-- A negated condition function on the name "Tom". -/
def negatedFunctionConfig : ConditionConfig :=
  { Name := "Tom", ConditionFunction := "exists", NegateCondition := true }

/-- A comparison whose field is wrapped by the field function "toLower". -/
def fieldFunctionConfig : ConditionConfig :=
  { Name := "a", Field := "x", FieldManipulationFunction := "toLower",
    ConditionOperator := "=", Check := some (.int 1) }

/-- A negated label check. -/
def negatedLabelConfig : ConditionConfig :=
  { Name := "a", Label := "Person", NegateCondition := true }

/-- The error a continuation brings into the chain when it is applied to a
builder without errors: the rendering error of a plain continuation, the error
argument of a nested one. -/
def Continuation.failure (lit : Option Value → String × error) : Continuation → error
  | .plain _ condition => (NewCondition lit condition).2
  | .nested _ _ err => err

/-! ## Facts about the string helpers -/

theorem strings.TrimSuffix_append (x suffix : String) :
    strings.TrimSuffix (x ++ suffix) suffix = x := by
  have h : strings.HasSuffix (x ++ suffix) suffix = true := by
    simp [strings.HasSuffix, String.data_append]
  simp [strings.TrimSuffix, h, String.data_append]

theorem String.append_ne_empty_right (a b : String) (h : b ≠ "") : a ++ b ≠ "" := by
  intro hab
  apply h
  have := congrArg String.data hab
  simp [String.data_append] at this
  exact String.ext this.2

theorem String.append_ne_empty_left (a b : String) (h : a ≠ "") : a ++ b ≠ "" := by
  intro hab
  apply h
  have := congrArg String.data hab
  simp [String.data_append] at this
  exact String.ext this.1

/-! ## The identity checks and the label short-circuit -/

/-- Claim C10. A configuration in which Name, Field, Label and
FieldManipulationFunction are all empty, or in which Field, Label and
FieldManipulationFunction are all non-empty, renders to the empty text and a
non-nil error, whatever the other fields and the literal renderer are. -/
theorem ToString_identity_checks_fail (lit : Option Value → String × error) (cfg : ConditionConfig)
    (h : (cfg.Name = "" ∧ cfg.Field = "" ∧ cfg.Label = "" ∧
            cfg.FieldManipulationFunction = "") ∨
         (cfg.Field ≠ "" ∧ cfg.Label ≠ "" ∧ cfg.FieldManipulationFunction ≠ "")) :
    ∃ e, cfg.ToString lit = ("", some e) := by
  rcases h with h | h
  · refine ⟨⟨"all of Name, Field, Function, and Label must be specified"⟩, ?_⟩
    simp [ConditionConfig.ToString, h, errors.New]
  · refine ⟨⟨"not all of Field, Label, and FieldManipulationFunction can be specified"⟩, ?_⟩
    simp [ConditionConfig.ToString, h, errors.New]

/-- Witness for C10: the empty configuration, and a configuration with Field,
Label and FieldManipulationFunction all set. -/
theorem ToString_identity_checks_fail_witness :
    (∃ e, ({} : ConditionConfig).ToString cypherizeInterface = ("", some e)) ∧
    (∃ e, ({ Name := "a", Field := "x", Label := "Person",
             FieldManipulationFunction := "toLower", ConditionOperator := "=",
             Check := some (.int 1) } : ConditionConfig).ToString cypherizeInterface =
          ("", some e)) :=
  ⟨ToString_identity_checks_fail cypherizeInterface {} (Or.inl (by decide)),
   ToString_identity_checks_fail cypherizeInterface _ (Or.inr (by decide))⟩

/-- Claim C4 fails as stated. With Name "a", Field "x" and Label "Person" the
label is non-empty and both identity checks pass, yet the result is not
"a:Person": the field branch is taken and the missing operator is reported. -/
theorem ToString_label_with_field_counterexample :
    labelWithFieldConfig.Label ≠ "" ∧
    ¬ (labelWithFieldConfig.Name = "" ∧ labelWithFieldConfig.Field = "" ∧
        labelWithFieldConfig.Label = "" ∧
        labelWithFieldConfig.FieldManipulationFunction = "") ∧
    ¬ (labelWithFieldConfig.Field ≠ "" ∧ labelWithFieldConfig.Label ≠ "" ∧
        labelWithFieldConfig.FieldManipulationFunction ≠ "") ∧
    labelWithFieldConfig.ToString cypherizeInterface ≠
      (labelWithFieldConfig.Name ++ ":" ++ labelWithFieldConfig.Label, none) ∧
    labelWithFieldConfig.ToString cypherizeInterface =
      ("", some ⟨"one of ConditionOperator or ConditionFunction must be specified"⟩) := by
  decide

/-- Claim C4, amended. A configuration whose Label is non-empty and whose Field is
empty renders to Name, a colon and Label with a nil error, whatever its other
fields (operator, function, field function, check values, negation) are. -/
theorem ToString_label_short_circuit (lit : Option Value → String × error)
    (cfg : ConditionConfig)
    (hlabel : cfg.Label ≠ "") (hfield : cfg.Field = "") :
    cfg.ToString lit = (cfg.Name ++ ":" ++ cfg.Label, none) := by
  simp [ConditionConfig.ToString, hlabel, hfield]

/-- Witness for the amended C4: Name "a" and Label "Person" give "a:Person",
here with an operator, a check value and the negation flag set as well. -/
theorem ToString_label_short_circuit_witness :
    ({ Name := "a", Label := "Person", ConditionOperator := "=",
       Check := some (.int 1), NegateCondition := true } : ConditionConfig).ToString
        cypherizeInterface = ("a" ++ ":" ++ "Person", none) ∧
    ("a" ++ ":" ++ "Person" : String) = "a:Person" :=
  ⟨ToString_label_short_circuit cypherizeInterface _ (by decide) (by decide), by decide⟩

/-! ## Operator handling -/

/-- Claim C9. A configuration that passes the identity checks and is not
short-circuited by a label renders to the empty text and a non-nil error when
ConditionOperator and ConditionFunction are both empty or both non-empty. -/
theorem ToString_operator_function_conflict (lit : Option Value → String × error)
    (cfg : ConditionConfig)
    (hid : ¬ (cfg.Name = "" ∧ cfg.Field = "" ∧ cfg.Label = "" ∧
              cfg.FieldManipulationFunction = ""))
    (hnot3 : ¬ (cfg.Field ≠ "" ∧ cfg.Label ≠ "" ∧ cfg.FieldManipulationFunction ≠ ""))
    (hreach : cfg.Field ≠ "" ∨ cfg.Label = "")
    (h : (cfg.ConditionOperator = "" ∧ cfg.ConditionFunction = "") ∨
         (cfg.ConditionOperator ≠ "" ∧ cfg.ConditionFunction ≠ "")) :
    ∃ e, cfg.ToString lit = ("", some e) := by
  have hop : ∀ q, ∃ e, ConditionConfig.ToString.operators lit cfg q = ("", some e) := by
    intro q
    rcases h with h | h
    · exact ⟨⟨"one of ConditionOperator or ConditionFunction must be specified"⟩, by
        simp [ConditionConfig.ToString.operators, h, errors.New]⟩
    · exact ⟨⟨"only one of ConditionOperator or ConditionFunction can be specified"⟩, by
        simp [ConditionConfig.ToString.operators, h, errors.New]⟩
  unfold ConditionConfig.ToString
  rw [if_neg hid, if_neg hnot3]
  by_cases hf : cfg.Field = ""
  · have hl : cfg.Label = "" := by
      rcases hreach with h1 | h1
      · exact absurd hf h1
      · exact h1
    simp only [hf, hl, ne_eq, not_true_eq_false, if_false]
    exact hop _
  · simp only [ne_eq, hf, not_false_eq_true, if_true]
    exact hop _

/-- Witness for C9: neither operator nor function, and both at once. -/
theorem ToString_operator_function_conflict_witness :
    (∃ e, ({ Name := "a", Field := "x", Check := some (.int 1) } :
        ConditionConfig).ToString cypherizeInterface = ("", some e)) ∧
    (∃ e, ({ Name := "a", ConditionOperator := "=", ConditionFunction := "exists",
             Check := some (.int 1) } : ConditionConfig).ToString cypherizeInterface =
          ("", some e)) :=
  ⟨ToString_operator_function_conflict cypherizeInterface _ (by decide) (by decide)
     (by decide) (Or.inl (by decide)),
   ToString_operator_function_conflict cypherizeInterface _ (by decide) (by decide)
     (by decide) (Or.inr (by decide))⟩

theorem String.join_cons_eq (a : String) (as : List String) :
    String.join (a :: as) = a ++ String.join as := by
  apply String.ext
  simp [String.join_eq, String.data_append]

theorem String.join_nil_eq : String.join [] = "" := rfl

theorem String.intercalate_go_eq (sep : String) :
    ∀ (as : List String) (acc : String),
      String.intercalate.go acc sep as = acc ++ String.join (as.map fun a => sep ++ a)
  | [], acc => by simp [String.intercalate.go, String.join_nil_eq]
  | a :: as, acc => by
    simp [String.intercalate.go, String.intercalate_go_eq sep as, String.join_cons_eq,
      String.append_assoc]

theorem String.join_map_append_sep (sep : String) :
    ∀ (as : List String) (a : String),
      a ++ sep ++ String.join (as.map fun x => x ++ sep) =
        a ++ String.join (as.map fun x => sep ++ x) ++ sep
  | [], a => by simp [String.join_nil_eq]
  | b :: bs, a => by
    have ih := String.join_map_append_sep sep bs (a ++ sep ++ b)
    simp only [List.map_cons, String.join_cons_eq, String.append_assoc] at ih ⊢
    exact ih

/-- Elements followed by a separator each are the separated elements followed by
one separator, for a list that is not empty. -/
theorem String.join_map_sep_eq_intercalate (sep : String) (ss : List String) (h : ss ≠ []) :
    String.join (ss.map fun x => x ++ sep) = sep.intercalate ss ++ sep := by
  cases ss with
  | nil => exact absurd rfl h
  | cons a as =>
    simp only [List.map_cons, String.join_cons_eq, String.intercalate,
      String.intercalate_go_eq]
    simpa [String.append_assoc] using String.join_map_append_sep sep as a

/-- The slice loop, on elements that the literal renderer maps to `ss`, appends
each rendered element and a comma. -/
theorem sliceLoop_rendered (lit : Option Value → String × error) :
    ∀ (vs : List (Option Value)) (ss : List String) (q : String),
      vs.map lit = ss.map (fun s => (s, none)) →
      ConditionConfig.ToString.sliceLoop lit vs q =
        (q ++ String.join (ss.map fun s => s ++ ","), none)
  | [], ss, q, h => by
    cases ss with
    | nil => simp [ConditionConfig.ToString.sliceLoop, String.join_nil_eq]
    | cons _ _ => simp at h
  | v :: vs, ss, q, h => by
    cases ss with
    | nil => simp at h
    | cons s ss =>
      simp only [List.map_cons, List.cons.injEq] at h
      simp only [ConditionConfig.ToString.sliceLoop, h.1, List.map_cons, String.join_cons_eq]
      rw [sliceLoop_rendered lit vs ss _ h.2]
      simp [String.append_assoc]

/-- A configuration that passes the identity checks and is not short-circuited
by a label reaches operator handling with the negation marker and the field text
built. -/
theorem ToString_reaches_operators (lit : Option Value → String × error) (cfg : ConditionConfig)
    (hid : ¬ (cfg.Name = "" ∧ cfg.Field = "" ∧ cfg.Label = "" ∧
              cfg.FieldManipulationFunction = ""))
    (hnot3 : ¬ (cfg.Field ≠ "" ∧ cfg.Label ≠ "" ∧ cfg.FieldManipulationFunction ≠ ""))
    (hreach : cfg.Field ≠ "" ∨ cfg.Label = "") :
    cfg.ToString lit =
      ConditionConfig.ToString.operators lit cfg
        ((if cfg.NegateCondition then "NOT " else "") ++
          (if cfg.Field ≠ "" then cfg.Name ++ "." ++ cfg.Field else cfg.Name)) := by
  unfold ConditionConfig.ToString
  rw [if_neg hid, if_neg hnot3]
  by_cases hf : cfg.Field = ""
  · have hl : cfg.Label = "" := by
      rcases hreach with h1 | h1
      · exact absurd hf h1
      · exact h1
    simp only [hf, hl, ne_eq, not_true_eq_false, if_false, String.empty_append]
  · simp only [ne_eq, hf, not_false_eq_true, if_true, String.empty_append]

/-- With an operator and no condition function, operator handling appends the
operator and goes on to the value checks. -/
theorem operators_with_operator (lit : Option Value → String × error) (cfg : ConditionConfig)
    (q : String) (hop : cfg.ConditionOperator ≠ "") (hcf : cfg.ConditionFunction = "") :
    ConditionConfig.ToString.operators lit cfg q =
      ConditionConfig.ToString.checks lit cfg
        ((if cfg.FieldManipulationFunction ≠ "" then
            q ++ (cfg.FieldManipulationFunction ++ "(" ++ q ++ ")")
          else q) ++ (" " ++ cfg.ConditionOperator)) := by
  simp [ConditionConfig.ToString.operators, hop, hcf]

theorem InOperator_ne_empty : InOperator ≠ "" := by decide

/-- Claim C7. A configuration that reaches operator handling with the operator IN
and no condition function renders to the empty text and a non-nil error when
CheckSlice is nil or empty, or Check is not nil. -/
theorem ToString_in_operator_invalid (lit : Option Value → String × error) (cfg : ConditionConfig)
    (hid : ¬ (cfg.Name = "" ∧ cfg.Field = "" ∧ cfg.Label = "" ∧
              cfg.FieldManipulationFunction = ""))
    (hnot3 : ¬ (cfg.Field ≠ "" ∧ cfg.Label ≠ "" ∧ cfg.FieldManipulationFunction ≠ ""))
    (hreach : cfg.Field ≠ "" ∨ cfg.Label = "")
    (hop : cfg.ConditionOperator = InOperator) (hcf : cfg.ConditionFunction = "")
    (h : cfg.CheckSlice = none ∨ cfg.CheckSlice = some [] ∨ cfg.Check ≠ none) :
    ∃ e, cfg.ToString lit = ("", some e) := by
  rw [ToString_reaches_operators lit cfg hid hnot3 hreach,
    operators_with_operator lit cfg _ (hop ▸ InOperator_ne_empty) hcf]
  unfold ConditionConfig.ToString.checks
  rw [if_pos hop]
  cases hs : cfg.CheckSlice with
  | none => exact ⟨⟨"slice can not be nil"⟩, rfl⟩
  | some slice =>
    by_cases hc : cfg.Check = none
    · have hnil : slice = [] := by
        rcases h with h | h | h
        · simp [hs] at h
        · simpa [hs] using h
        · exact absurd hc h
      exact ⟨⟨"slice should not be nil"⟩, by simp [hc, hnil, errors.New]⟩
    · exact ⟨⟨"check should not be defined when using in operator"⟩, by
        simp [hc, errors.New]⟩

/-- Witness for C7: the operator IN with a nil slice. -/
theorem ToString_in_operator_invalid_witness :
    ∃ e, ({ Name := "a", Field := "id", ConditionOperator := "IN" } :
      ConditionConfig).ToString cypherizeInterface = ("", some e) :=
  ToString_in_operator_invalid cypherizeInterface _ (by decide) (by decide) (by decide)
    (by decide) (by decide) (Or.inl (by decide))

/-- Claim C5. With Field set, no Label, no field function, no condition function,
no negation and an operator other than IN: a non-nil Check that the literal
renderer maps to `s` gives Name.Field, the operator and `s`, whether or not
CheckName and CheckField are set; a nil Check with CheckName and CheckField both
set gives Name.Field, the operator and CheckName.CheckField. -/
theorem ToString_comparison (lit : Option Value → String × error) (cfg : ConditionConfig)
    (hfield : cfg.Field ≠ "") (hlabel : cfg.Label = "")
    (hfmf : cfg.FieldManipulationFunction = "") (hcf : cfg.ConditionFunction = "")
    (hneg : cfg.NegateCondition = false)
    (hop : cfg.ConditionOperator ≠ "") (hin : cfg.ConditionOperator ≠ InOperator) :
    (∀ v s, cfg.Check = some v → lit (some v) = (s, none) →
      cfg.ToString lit =
        (cfg.Name ++ "." ++ cfg.Field ++ " " ++ cfg.ConditionOperator ++ " " ++ s, none)) ∧
    (cfg.Check = none → cfg.CheckName ≠ "" → cfg.CheckField ≠ "" →
      cfg.ToString lit =
        (cfg.Name ++ "." ++ cfg.Field ++ " " ++ cfg.ConditionOperator ++ " " ++
          cfg.CheckName ++ "." ++ cfg.CheckField, none)) := by
  have hid : ¬ (cfg.Name = "" ∧ cfg.Field = "" ∧ cfg.Label = "" ∧
      cfg.FieldManipulationFunction = "") := fun h => hfield h.2.1
  have hnot3 : ¬ (cfg.Field ≠ "" ∧ cfg.Label ≠ "" ∧ cfg.FieldManipulationFunction ≠ "") :=
    fun h => h.2.1 hlabel
  rw [ToString_reaches_operators lit cfg hid hnot3 (Or.inl hfield),
    operators_with_operator lit cfg _ hop hcf]
  unfold ConditionConfig.ToString.checks
  rw [if_neg hin]
  constructor
  · intro v s hv hs
    simp [hv, hs, hneg, hfield, hfmf, String.append_assoc]
  · intro hc hn hf
    simp [hc, hn, hf, hneg, hfield, hfmf, String.append_assoc]

/-- Witness for C5: Name "a", Field "age", operator ">" and Check 30 give
"a.age > 30", here with CheckName and CheckField set as well. -/
theorem ToString_comparison_witness :
    ({ Name := "a", Field := "age", ConditionOperator := ">", Check := some (.int 30),
       CheckName := "b", CheckField := "age" } : ConditionConfig).ToString
        cypherizeInterface =
      ("a" ++ "." ++ "age" ++ " " ++ ">" ++ " " ++ "30", none) ∧
    ("a" ++ "." ++ "age" ++ " " ++ ">" ++ " " ++ "30" : String) = "a.age > 30" :=
  ⟨(ToString_comparison cypherizeInterface
      { Name := "a", Field := "age", ConditionOperator := ">", Check := some (.int 30),
        CheckName := "b", CheckField := "age" }
      (by decide) (by decide) (by decide) (by decide) (by decide) (by decide)
      (by decide)).1 (.int 30) "30" (by decide) (by decide), by decide⟩

/-- Claim C6. With Field set, no Label, no field function, no condition function,
no negation, the operator IN, a nil Check and a non-empty CheckSlice whose
elements the literal renderer maps to `ss`, the result is Name.Field, " IN [",
the elements of `ss` in order separated by single commas, and "]". -/
theorem ToString_in_operator (lit : Option Value → String × error) (cfg : ConditionConfig)
    (vs : List (Option Value)) (ss : List String)
    (hfield : cfg.Field ≠ "") (hlabel : cfg.Label = "")
    (hfmf : cfg.FieldManipulationFunction = "") (hcf : cfg.ConditionFunction = "")
    (hneg : cfg.NegateCondition = false) (hop : cfg.ConditionOperator = InOperator)
    (hcheck : cfg.Check = none) (hslice : cfg.CheckSlice = some vs) (hne : vs ≠ [])
    (hlit : vs.map lit = ss.map fun s => (s, none)) :
    cfg.ToString lit =
      (cfg.Name ++ "." ++ cfg.Field ++ " IN [" ++ ",".intercalate ss ++ "]", none) := by
  have hid : ¬ (cfg.Name = "" ∧ cfg.Field = "" ∧ cfg.Label = "" ∧
      cfg.FieldManipulationFunction = "") := fun h => hfield h.2.1
  have hnot3 : ¬ (cfg.Field ≠ "" ∧ cfg.Label ≠ "" ∧ cfg.FieldManipulationFunction ≠ "") :=
    fun h => h.2.1 hlabel
  have hss : ss ≠ [] := by
    intro h
    apply hne
    simpa [h] using hlit
  have hlen : vs.length ≠ 0 := fun h => hne (List.length_eq_zero.mp h)
  rw [ToString_reaches_operators lit cfg hid hnot3 (Or.inl hfield),
    operators_with_operator lit cfg _ (hop ▸ InOperator_ne_empty) hcf]
  unfold ConditionConfig.ToString.checks
  rw [if_pos hop]
  simp only [hslice, hcheck, ne_eq, not_true_eq_false, if_false, hlen,
    sliceLoop_rendered lit vs ss "[" hlit, String.join_map_sep_eq_intercalate "," ss hss]
  rw [← String.append_assoc "[", strings.TrimSuffix_append]
  have hkw : ∀ x : String, " IN" ++ (" " ++ ("[" ++ x)) = " IN [" ++ x := fun x => by
    rw [← String.append_assoc, ← String.append_assoc]; rfl
  simp [hneg, hfield, hfmf, hop, InOperator, hkw, String.append_assoc]

/-- Witness for C6: Name "a", Field "id" and CheckSlice [1,2,3] give
"a.id IN [1,2,3]". -/
theorem ToString_in_operator_witness :
    ({ Name := "a", Field := "id", ConditionOperator := "IN",
       CheckSlice := some [some (.int 1), some (.int 2), some (.int 3)] } : ConditionConfig).ToString
        cypherizeInterface =
      ("a" ++ "." ++ "id" ++ " IN [" ++ ",".intercalate ["1", "2", "3"] ++ "]", none) ∧
    ("a" ++ "." ++ "id" ++ " IN [" ++ ",".intercalate ["1", "2", "3"] ++ "]" : String) =
      "a.id IN [1,2,3]" :=
  ⟨ToString_in_operator cypherizeInterface
      { Name := "a", Field := "id", ConditionOperator := "IN",
        CheckSlice := some [some (.int 1), some (.int 2), some (.int 3)] }
      [some (.int 1), some (.int 2), some (.int 3)] ["1", "2", "3"]
      (by decide) (by decide) (by decide) (by decide) (by decide) (by decide)
      (by decide) (by decide) (by decide) (by decide), by decide⟩

/-- Claim C8 fails as stated. With Check 30 and the pair CheckName "b",
CheckField "age" set together under the operator ">", the configuration reaches
operator handling, yet no error is returned: the check value is rendered. -/
theorem ToString_check_and_pair_counterexample :
    ¬ (checkAndPairConfig.Name = "" ∧ checkAndPairConfig.Field = "" ∧
        checkAndPairConfig.Label = "" ∧ checkAndPairConfig.FieldManipulationFunction = "") ∧
    ¬ (checkAndPairConfig.Field ≠ "" ∧ checkAndPairConfig.Label ≠ "" ∧
        checkAndPairConfig.FieldManipulationFunction ≠ "") ∧
    (checkAndPairConfig.Field ≠ "" ∨ checkAndPairConfig.Label = "") ∧
    checkAndPairConfig.ConditionFunction = "" ∧
    checkAndPairConfig.ConditionOperator ≠ "" ∧
    checkAndPairConfig.ConditionOperator ≠ InOperator ∧
    (checkAndPairConfig.Check ≠ none ∧ checkAndPairConfig.CheckName ≠ "" ∧
      checkAndPairConfig.CheckField ≠ "") ∧
    checkAndPairConfig.ToString cypherizeInterface = ("a.age > 30", none) := by
  decide

/-- Claim C8, amended. A configuration that reaches operator handling with no
condition function and an operator other than IN returns the
missing-comparison-value error when Check is nil and CheckName and CheckField are
not both set; when Check is not nil and the literal renderer accepts it, no error
is returned, whether or not CheckName and CheckField are set. -/
theorem ToString_comparison_value (lit : Option Value → String × error) (cfg : ConditionConfig)
    (hid : ¬ (cfg.Name = "" ∧ cfg.Field = "" ∧ cfg.Label = "" ∧
              cfg.FieldManipulationFunction = ""))
    (hnot3 : ¬ (cfg.Field ≠ "" ∧ cfg.Label ≠ "" ∧ cfg.FieldManipulationFunction ≠ ""))
    (hreach : cfg.Field ≠ "" ∨ cfg.Label = "")
    (hcf : cfg.ConditionFunction = "")
    (hop : cfg.ConditionOperator ≠ "") (hin : cfg.ConditionOperator ≠ InOperator) :
    (cfg.Check = none → ¬ (cfg.CheckName ≠ "" ∧ cfg.CheckField ≠ "") →
      cfg.ToString lit =
        ("", errors.New "one of (Check) or (CheckName, CheckField) must be specified")) ∧
    (∀ v s, cfg.Check = some v → lit (some v) = (s, none) →
      (cfg.ToString lit).2 = none) := by
  rw [ToString_reaches_operators lit cfg hid hnot3 hreach,
    operators_with_operator lit cfg _ hop hcf]
  unfold ConditionConfig.ToString.checks
  rw [if_neg hin]
  constructor
  · intro hc hpair
    simp only [hc, if_neg hpair]
  · intro v s hv hs
    simp only [hv, hs]

/-- Witness for the amended C8: no check value at all gives the error, and Check
30 together with a set pair gives none. -/
theorem ToString_comparison_value_witness :
    ({ Name := "a", Field := "age", ConditionOperator := ">" } :
        ConditionConfig).ToString cypherizeInterface =
      ("", errors.New "one of (Check) or (CheckName, CheckField) must be specified") ∧
    (checkAndPairConfig.ToString cypherizeInterface).2 = none :=
  ⟨(ToString_comparison_value cypherizeInterface
      { Name := "a", Field := "age", ConditionOperator := ">" }
      (by decide) (by decide) (by decide) (by decide) (by decide) (by decide)).1
      (by decide) (by decide),
   (ToString_comparison_value cypherizeInterface checkAndPairConfig
      (by decide) (by decide) (by decide) (by decide) (by decide) (by decide)).2
      (.int 30) "30" (by decide) (by decide)⟩

/-- Elements that the literal renderer accepts are mapped to their rendered
texts. -/
theorem map_lit_of_accepted (lit : Option Value → String × error) :
    ∀ vs : List (Option Value), (∀ v ∈ vs, (lit v).2 = none) →
      vs.map lit = (vs.map fun v => (lit v).1).map fun s => (s, none)
  | [], _ => rfl
  | v :: vs, h => by
    have hv : (lit v).2 = none := h v (List.mem_cons_self v vs)
    have ih := map_lit_of_accepted lit vs fun w hw => h w (List.mem_cons_of_mem v hw)
    simp only [List.map_cons, List.map_map] at ih ⊢
    rw [ih]
    congr 1
    exact Prod.ext rfl hv

/-- Claim C3. A configuration that satisfies all the stated invariants renders to
a non-empty text with a nil error. -/
theorem ToString_valid_config (lit : Option Value → String × error) (cfg : ConditionConfig)
    (hid : cfg.Name ≠ "" ∨ cfg.Field ≠ "" ∨ cfg.Label ≠ "" ∨
            cfg.FieldManipulationFunction ≠ "")
    (hnot3 : ¬ (cfg.Field ≠ "" ∧ cfg.Label ≠ "" ∧ cfg.FieldManipulationFunction ≠ ""))
    (hone : (cfg.ConditionOperator ≠ "" ∧ cfg.ConditionFunction = "") ∨
            (cfg.ConditionOperator = "" ∧ cfg.ConditionFunction ≠ ""))
    (hmem : cfg.ConditionOperator = InOperator →
      ∃ vs, cfg.CheckSlice = some vs ∧ vs ≠ [] ∧ cfg.Check = none ∧
        ∀ v ∈ vs, (lit v).2 = none)
    (hcmp : cfg.ConditionOperator ≠ InOperator →
      ((∃ v, cfg.Check = some v ∧ (lit (some v)).2 = none) ∧
          ¬ (cfg.CheckName ≠ "" ∧ cfg.CheckField ≠ "")) ∨
        (cfg.Check = none ∧ cfg.CheckName ≠ "" ∧ cfg.CheckField ≠ "")) :
    ∃ text, cfg.ToString lit = (text, none) ∧ text ≠ "" := by
  have hid' : ¬ (cfg.Name = "" ∧ cfg.Field = "" ∧ cfg.Label = "" ∧
      cfg.FieldManipulationFunction = "") := by
    rintro ⟨h1, h2, h3, h4⟩
    rcases hid with h | h | h | h
    · exact h h1
    · exact h h2
    · exact h h3
    · exact h h4
  have hsp : (" " : String) ≠ "" := by decide
  -- the value checks succeed on any text built so far
  have hchecks : cfg.ConditionOperator ≠ "" → ∀ q, ∃ text,
      ConditionConfig.ToString.checks lit cfg q = (text, none) ∧ text ≠ "" := by
    intro hop q
    unfold ConditionConfig.ToString.checks
    by_cases hin : cfg.ConditionOperator = InOperator
    · obtain ⟨vs, hs, hne, hc, hacc⟩ := hmem hin
      have hlen : vs.length ≠ 0 := fun h => hne (List.length_eq_zero.mp h)
      rw [if_pos hin]
      simp only [hs, hc, ne_eq, not_true_eq_false, if_false, hlen,
        sliceLoop_rendered lit vs _ "[" (map_lit_of_accepted lit vs hacc)]
      exact ⟨_, rfl, String.append_ne_empty_right _ _
        (String.append_ne_empty_right _ _ (by decide))⟩
    · rw [if_neg hin]
      rcases hcmp hin with ⟨⟨v, hv, hacc⟩, _⟩ | ⟨hc, hn, hf⟩
      · have hlit : lit (some v) = ((lit (some v)).1, none) := Prod.ext rfl hacc
        simp only [hv]
        rw [hlit]
        exact ⟨_, rfl, String.append_ne_empty_right _ _
          (String.append_ne_empty_left _ _ hsp)⟩
      · simp only [hc, hn, hf, ne_eq, not_false_eq_true, and_self, if_true]
        exact ⟨_, rfl, String.append_ne_empty_right _ _
          (String.append_ne_empty_left _ _ hsp)⟩
  -- operator handling succeeds on any text built so far
  have hops : ∀ q, ∃ text,
      ConditionConfig.ToString.operators lit cfg q = (text, none) ∧ text ≠ "" := by
    intro q
    rcases hone with ⟨hop, hcf⟩ | ⟨hop, hcf⟩
    · rw [operators_with_operator lit cfg q hop hcf]
      exact hchecks hop _
    · unfold ConditionConfig.ToString.operators
      simp only [hop, hcf, ne_eq, not_true_eq_false, not_false_eq_true, true_and, false_and,
        and_false, if_false, if_true]
      cases cfg.NegateCondition with
      | true =>
        exact ⟨_, rfl, String.append_ne_empty_left _ _ (String.append_ne_empty_left _ _
          (String.append_ne_empty_left _ _ (String.append_ne_empty_left _ _ (by decide))))⟩
      | false =>
        exact ⟨_, rfl, String.append_ne_empty_left _ _ (String.append_ne_empty_left _ _
          (String.append_ne_empty_left _ _ hcf))⟩
  by_cases hreach : cfg.Field ≠ "" ∨ cfg.Label = ""
  · rw [ToString_reaches_operators lit cfg hid' hnot3 hreach]
    exact hops _
  · have hf : cfg.Field = "" := by
      by_contra h
      exact hreach (Or.inl h)
    have hl : cfg.Label ≠ "" := fun h => hreach (Or.inr h)
    exact ⟨cfg.Name ++ ":" ++ cfg.Label, by simp [ConditionConfig.ToString, hl, hf],
      String.append_ne_empty_right _ _ hl⟩

/-- Witness for C3: Name "a", Field "age", operator ">" and Check 30 satisfy the
invariants. -/
theorem ToString_valid_config_witness :
    ∃ text, ({ Name := "a", Field := "age", ConditionOperator := ">",
               Check := some (.int 30) } : ConditionConfig).ToString cypherizeInterface =
        (text, none) ∧ text ≠ "" :=
  ToString_valid_config cypherizeInterface
    { Name := "a", Field := "age", ConditionOperator := ">", Check := some (.int 30) }
    (by decide) (by decide) (by decide) (fun h => absurd h (by decide))
    (fun _ => Or.inl ⟨⟨.int 30, rfl, rfl⟩, by decide⟩)

/-! ## The chain -/

theorem getElem?_singleton_some {α : Type} {a l : α} {k : Nat}
    (h : [a][k]? = some l) : k = 0 ∧ a = l := by
  cases k with
  | zero => exact ⟨rfl, by simpa using h⟩
  | succ k => simp at h

/-- Linking a freshly allocated pair of nodes to a well-shaped chain succeeds and
gives a well-shaped chain with one more link. -/
theorem ChainInv.link {c : ConditionBuilder} {links : List (String × String)}
    (h : ChainInv c links) (text kw : String) :
    ∃ c', ConditionBuilder.addNext
        { c with
          conditionNodes := c.conditionNodes ++ [conditionNode.mk text none]
          operatorNodes := c.operatorNodes ++
            [operatorNode.mk false kw (some c.conditionNodes.length)] }
        (some c.operatorNodes.length) = some (c', none) ∧
      ChainInv c' (links ++ [(kw, text)]) := by
  obtain ⟨herr, hpos, hstart, hcur, hol, hcl, hop, hcond⟩ := h
  have hlast : (links.length - 1) < links.length := by omega
  obtain ⟨l, hl⟩ : ∃ l, links[links.length - 1]? = some l :=
    ⟨links[links.length - 1], List.getElem?_eq_getElem hlast⟩
  have hcn := hcond _ l hl
  have hnot : ¬ (links.length - 1 + 1 < links.length) := by omega
  rw [if_neg hnot] at hcn
  refine ⟨{ Start := c.Start, Current := some c.conditionNodes.length, errors := c.errors,
            operatorNodes := c.operatorNodes ++
              [operatorNode.mk false kw (some c.conditionNodes.length)],
            conditionNodes :=
              (c.conditionNodes ++ [conditionNode.mk text none]).set
                (links.length - 1) (conditionNode.mk l.2 (some c.operatorNodes.length)) },
    ?_, ?_⟩
  · simp only [ConditionBuilder.addNext, hol, hcl, hstart, hcur]
    rw [← hol, List.getElem?_concat_length]
    simp only [hol]
    have hlast' : links.length - 1 < c.conditionNodes.length := by omega
    rw [List.getElem?_append_left hlast', hcn]
  · refine ⟨herr, by simp, hstart, by simp [hcl], by simp [hol], by simp [hcl], ?_, ?_⟩
    · intro i l' hi
      simp only
      by_cases hlt : i < links.length
      · have hlt' : i < c.operatorNodes.length := by omega
        rw [List.getElem?_append_left hlt] at hi
        rw [List.getElem?_append_left hlt']
        exact hop i l' hi
      · have hge : links.length ≤ i := by omega
        rw [List.getElem?_append_right hge] at hi
        obtain ⟨hi0, hll⟩ := getElem?_singleton_some hi
        have hieq : i = c.operatorNodes.length := by omega
        subst hll
        rw [hieq, List.getElem?_concat_length]
        have : ¬ (links.length = 0) := by omega
        simp [this, hcl, hol]
    · intro i l' hi
      simp only [List.length_append, List.length_singleton]
      rw [List.getElem?_set]
      by_cases hlt : i < links.length
      · rw [List.getElem?_append_left hlt] at hi
        have hold := hcond i l' hi
        by_cases hil : links.length - 1 = i
        · rw [if_pos hil]
          have hb : links.length - 1 <
              (c.conditionNodes ++ [conditionNode.mk text none]).length := by
            simp; omega
          subst hil
          rw [if_pos hb]
          rw [hl] at hi
          have hll : l = l' := Option.some.inj hi
          subst hll
          have h1 : links.length - 1 + 1 < links.length + 1 := by omega
          have h2 : links.length - 1 + 1 = links.length := by omega
          simp [h1, h2, hol]
        · have hlt' : i < c.conditionNodes.length := by omega
          rw [if_neg hil, List.getElem?_append_left hlt', hold]
          have h1 : i + 1 < links.length := by omega
          have h2 : i + 1 < links.length + 1 := by omega
          simp [h1, h2]
      · have hge : links.length ≤ i := by omega
        rw [List.getElem?_append_right hge] at hi
        obtain ⟨hi0, hll⟩ := getElem?_singleton_some hi
        have hieq : i = c.conditionNodes.length := by omega
        subst hll
        have hne : ¬ (links.length - 1 = i) := by omega
        rw [if_neg hne, hieq, List.getElem?_concat_length]
        simp [hcl]

theorem drop_cons_facts {α : Type} {links rest : List α} {l : α} {i : Nat}
    (h : links.drop i = l :: rest) :
    i < links.length ∧ links[i]? = some l ∧ links.drop (i + 1) = rest := by
  have hlt : i < links.length := by
    by_contra hge
    rw [List.drop_eq_nil_of_le (by omega)] at h
    exact List.noConfusion h
  refine ⟨hlt, ?_, ?_⟩
  · have := List.getElem?_drop links i 0
    rw [h] at this
    simpa using this.symm
  · have h1 : (links.drop i).drop 1 = rest := by rw [h]; rfl
    rw [List.drop_drop] at h1
    rw [← h1]

/-- The walk of `Build` over a well-shaped chain, from a link that is not the
first: each remaining link adds its keyword, a space, its text and a space. -/
theorem Build_loop_tail {c : ConditionBuilder} {links : List (String × String)}
    (h : ChainInv c links) :
    ∀ (rest : List (String × String)) (i : Nat) (query : String) (fuel : Nat),
      0 < i → links.drop i = rest → rest.length < fuel →
      ConditionBuilder.Build.loop c fuel (if i < links.length then some i else none) query =
        some (query ++ String.join (rest.map fun l => l.1 ++ " " ++ l.2 ++ " "))
  | [], i, query, fuel, _, hdrop, hfuel => by
    have hge : ¬ (i < links.length) := by
      intro hlt
      have := congrArg List.length hdrop
      simp at this
      omega
    obtain ⟨fuel, rfl⟩ : ∃ k, fuel = k + 1 := ⟨fuel - 1, by simp at hfuel; omega⟩
    simp [ConditionBuilder.Build.loop, hge, String.join_nil_eq]
  | l :: rest, i, query, fuel, hi, hdrop, hfuel => by
    obtain ⟨hlt, hget, hnext⟩ := drop_cons_facts hdrop
    obtain ⟨fuel, rfl⟩ : ∃ k, fuel = k + 1 := ⟨fuel - 1, by simp at hfuel; omega⟩
    have hne : ¬ (i = 0) := by omega
    have ih := Build_loop_tail h rest (i + 1)
      (query ++ ((if false then "" else "" ++ (l.1 ++ " ")) ++ l.2 ++ " ")) fuel
      (by omega) hnext (by simp at hfuel; omega)
    simp only [ConditionBuilder.Build.loop, if_pos hlt, h.op_at i l hget, h.cond_at i l hget,
      hne, decide_False, WhereQuery.ToString, ih, List.map_cons, String.join_cons_eq]
    simp [String.append_assoc]

/-- On a well-shaped chain `Build` returns the text of the chain and a nil
error. -/
theorem Build_of_ChainInv {c : ConditionBuilder} {kw first : String}
    {tail : List (String × String)} (h : ChainInv c ((kw, first) :: tail)) :
    c.Build = some (chainText first tail, none) := by
  have hloop : ConditionBuilder.Build.loop c (c.operatorNodes.length + 1) (some 0) "" =
      some (chainText first tail ++ " ") := by
    have htail := Build_loop_tail h tail 1 ("" ++ ((if true then "" else "" ++ (kw ++ " ")) ++
      first ++ " ")) c.operatorNodes.length (by omega) rfl
      (by rw [h.ops_length]; simp)
    have h0 := h.op_at 0 (kw, first) (by simp)
    have h1 := h.cond_at 0 (kw, first) (by simp)
    simp only [ConditionBuilder.Build.loop, h0, h1, decide_True, WhereQuery.ToString]
    simp only [List.length_cons] at htail ⊢
    rw [htail]
    have hjoin := String.join_map_append_sep " " (tail.map fun l => l.1 ++ " " ++ l.2) first
    simp only [List.map_map, Function.comp_def, String.append_assoc] at hjoin
    simp only [chainText, if_true, String.empty_append, String.append_assoc]
    rw [hjoin]
  unfold ConditionBuilder.Build
  simp only [ConditionBuilder.hasErrors, h.errors_nil, h.start, hloop,
    strings.TrimSuffix_append]
  rfl

/-- A plain continuation is `addCondition` with the keyword of its operator. -/
theorem call_plain (lit : Option Value → String × error) (c : ConditionBuilder) (op : Operator)
    (cfg : Option ConditionConfig) :
    Continuation.call lit c (.plain op cfg) = c.addCondition lit cfg op.keyword := by
  cases op <;> rfl

/-- A nested continuation is `addNestedCondition` with the keyword of its
operator. -/
theorem call_nested (lit : Option Value → String × error) (c : ConditionBuilder) (op : Operator)
    (query : WhereQuery) (err : error) :
    Continuation.call lit c (.nested op query err) =
      c.addNestedCondition query err op.keyword := by
  cases op <;> rfl

/-- The function `C` on a configuration that renders gives a well-shaped chain of
one link. -/
theorem C_of_rendered (lit : Option Value → String × error) (c0 : Option ConditionConfig)
    (first : String) (h0 : NewCondition lit c0 = (first, none)) :
    ∃ c, C lit c0 = some c ∧ ChainInv c [("", first)] := by
  refine ⟨{ Start := some 0, Current := some 0, errors := none,
            operatorNodes := [operatorNode.mk true "" (some 0)],
            conditionNodes := [conditionNode.mk first none] }, ?_, ?_⟩
  · simp [C, h0, ConditionBuilder.newConditionNode, ConditionBuilder.newOperatorNode,
      ConditionBuilder.addNext]
  · refine ⟨rfl, by simp, rfl, rfl, rfl, rfl, ?_, ?_⟩
    · intro i l hi
      obtain ⟨hi0, hl⟩ := getElem?_singleton_some hi
      subst hi0 hl
      rfl
    · intro i l hi
      obtain ⟨hi0, hl⟩ := getElem?_singleton_some hi
      subst hi0 hl
      rfl

/-- On a well-shaped chain `addCondition` with a configuration that renders adds
one link. -/
theorem addCondition_of_rendered (lit : Option Value → String × error) {c : ConditionBuilder}
    {links : List (String × String)} (h : ChainInv c links)
    (cfg : Option ConditionConfig) (kw text : String)
    (hr : NewCondition lit cfg = (text, none)) :
    ∃ c', c.addCondition lit cfg kw = some c' ∧ ChainInv c' (links ++ [(kw, text)]) := by
  obtain ⟨c', hnext, hinv⟩ := h.link text kw
  refine ⟨c', ?_, hinv⟩
  have hno : c.hasErrors = false := by simp [ConditionBuilder.hasErrors, h.errors_nil]
  simp only [ConditionBuilder.addCondition, hno, hr, ConditionBuilder.newConditionNode,
    ConditionBuilder.newOperatorNode, hnext, Bool.false_eq_true, if_false]

/-- On a well-shaped chain `addNestedCondition` with a nil error adds the query
in parentheses as one link. -/
theorem addNestedCondition_of_nil (c : ConditionBuilder)
    {links : List (String × String)} (h : ChainInv c links) (query : WhereQuery)
    (kw : String) :
    ∃ c', c.addNestedCondition query none kw = some c' ∧
      ChainInv c' (links ++ [(kw, "(" ++ query ++ ")")]) := by
  obtain ⟨c', hnext, hinv⟩ := h.link ("(" ++ query ++ ")") kw
  refine ⟨c', ?_, hinv⟩
  have hno : c.hasErrors = false := by simp [ConditionBuilder.hasErrors, h.errors_nil]
  simp only [ConditionBuilder.addNestedCondition, hno, ConditionBuilder.newConditionNode,
    ConditionBuilder.newOperatorNode, hnext, Bool.false_eq_true, if_false]

/-- A builder that has errors is returned unchanged by every continuation. -/
theorem call_of_hasErrors (lit : Option Value → String × error) (c : ConditionBuilder)
    (h : c.hasErrors = true) (op : Continuation) : Continuation.call lit c op = some c := by
  cases op with
  | plain op cfg => simp [call_plain, ConditionBuilder.addCondition, h]
  | nested op query err => simp [call_nested, ConditionBuilder.addNestedCondition, h]

/-- A builder that has errors is returned unchanged by every sequence of
continuations. -/
theorem chain_of_hasErrors (lit : Option Value → String × error) (c : ConditionBuilder)
    (h : c.hasErrors = true) : ∀ ops : List Continuation, chain lit (some c) ops = some c
  | [] => rfl
  | op :: ops => by
    simp only [chain, Option.some_bind, call_of_hasErrors lit c h op]
    exact chain_of_hasErrors lit c h ops

theorem chain_append (lit : Option Value → String × error) :
    ∀ (ops₁ ops₂ : List Continuation) (c : Option ConditionBuilder),
      chain lit c (ops₁ ++ ops₂) = chain lit (chain lit c ops₁) ops₂
  | [], _, _ => rfl
  | op :: ops₁, ops₂, c => by
    simp only [List.cons_append, chain]
    exact chain_append lit ops₁ ops₂ _

/-- The first error recorded on a builder without errors makes `Build` return the
empty text and an error. -/
theorem Build_addError_of_no_errors (c : ConditionBuilder) (err : GoError)
    (h : c.hasErrors = false) :
    (c.addError (some err)).hasErrors = true ∧
      (c.addError (some err)).Build =
        some ("", some ⟨"(1) errors occurred: " ++ err.msg⟩) := by
  have herrs : (c.addError (some err)).errors = some [some err] := by
    unfold ConditionBuilder.addError
    cases he : c.errors with
    | none => rfl
    | some es =>
      cases es with
      | nil => rfl
      | cons e es => simp [ConditionBuilder.hasErrors, he] at h
  have hhas : (c.addError (some err)).hasErrors = true := by
    simp [ConditionBuilder.hasErrors, herrs]
  refine ⟨hhas, ?_⟩
  unfold ConditionBuilder.Build
  rw [if_pos hhas, herrs]
  simp only [Option.getD_some, ConditionBuilder.Build.errLoop, String.empty_append,
    strings.TrimSuffix_append, List.length_singleton]
  rfl

/-- Recording an error makes `hasErrors` true. -/
theorem hasErrors_addError (c : ConditionBuilder) (e : error) :
    (c.addError e).hasErrors = true := by
  unfold ConditionBuilder.addError
  cases c.errors <;> simp [ConditionBuilder.hasErrors]

/-- A continuation applied to a builder that has errors or is well-shaped
returns, and its result has errors or is well-shaped. -/
theorem call_reachable (lit : Option Value → String × error) (c : ConditionBuilder)
    (h : c.hasErrors = true ∨ ∃ links, ChainInv c links) (op : Continuation) :
    ∃ c', Continuation.call lit c op = some c' ∧
      (c'.hasErrors = true ∨ ∃ links, ChainInv c' links) := by
  rcases h with h | ⟨links, h⟩
  · exact ⟨c, call_of_hasErrors lit c h op, Or.inl h⟩
  · have hno : c.hasErrors = false := by simp [ConditionBuilder.hasErrors, h.errors_nil]
    cases op with
    | plain op cfg =>
      cases hn : NewCondition lit cfg with
      | mk text e =>
        cases e with
        | none =>
          obtain ⟨c', hc', hinv⟩ := addCondition_of_rendered lit h cfg op.keyword text hn
          exact ⟨c', by rw [call_plain, hc'], Or.inr ⟨_, hinv⟩⟩
        | some err =>
          refine ⟨c.addError (some err), ?_, Or.inl (hasErrors_addError _ _)⟩
          rw [call_plain]
          simp [ConditionBuilder.addCondition, hno, hn]
    | nested op query err =>
      cases err with
      | none =>
        obtain ⟨c', hc', hinv⟩ := addNestedCondition_of_nil c h query op.keyword
        exact ⟨c', by rw [call_nested, hc'], Or.inr ⟨_, hinv⟩⟩
      | some e =>
        refine ⟨c.addError (some e), ?_, Or.inl (hasErrors_addError _ _)⟩
        rw [call_nested]
        simp [ConditionBuilder.addNestedCondition, hno]

/-- The function `C` returns a builder that has errors or is well-shaped. -/
theorem C_reachable (lit : Option Value → String × error) (c0 : Option ConditionConfig) :
    ∃ c, C lit c0 = some c ∧ (c.hasErrors = true ∨ ∃ links, ChainInv c links) := by
  cases hn : NewCondition lit c0 with
  | mk text e =>
    cases e with
    | none =>
      obtain ⟨c, hc, hinv⟩ := C_of_rendered lit c0 text hn
      exact ⟨c, hc, Or.inr ⟨_, hinv⟩⟩
    | some err =>
      refine ⟨(ConditionBuilder.mk none none none [] []).addError (some err), ?_,
        Or.inl (hasErrors_addError _ _)⟩
      simp [C, hn, ConditionBuilder.addError]

/-- Every chain started with `C` returns a builder, which has errors or is
well-shaped. -/
theorem chain_reachable (lit : Option Value → String × error) (c0 : Option ConditionConfig)
    (ops : List Continuation) :
    ∃ c, chain lit (C lit c0) ops = some c ∧
      (c.hasErrors = true ∨ ∃ links, ChainInv c links) := by
  have step : ∀ (ops : List Continuation) (c : ConditionBuilder),
      (c.hasErrors = true ∨ ∃ links, ChainInv c links) →
      ∃ c', chain lit (some c) ops = some c' ∧
        (c'.hasErrors = true ∨ ∃ links, ChainInv c' links) := by
    intro ops
    induction ops with
    | nil => exact fun c h => ⟨c, rfl, h⟩
    | cons op ops ih =>
      intro c h
      obtain ⟨c₁, hc₁, h₁⟩ := call_reachable lit c h op
      obtain ⟨c', hc', h'⟩ := ih c₁ h₁
      exact ⟨c', by simp only [chain, Option.some_bind, hc₁, hc'], h'⟩
  obtain ⟨c, hc, h⟩ := C_reachable lit c0
  rw [hc]
  exact step ops c h

/-- Plain continuations whose configurations all render extend a well-shaped
chain by one link each, in order. -/
theorem chain_of_rendered (lit : Option Value → String × error) :
    ∀ (steps : List (Operator × Option ConditionConfig × String)) (c : ConditionBuilder)
      (links : List (String × String)),
      ChainInv c links →
      (∀ s ∈ steps, NewCondition lit s.2.1 = (s.2.2, none)) →
      ∃ c', chain lit (some c) (steps.map fun s => Continuation.plain s.1 s.2.1) = some c' ∧
        ChainInv c' (links ++ steps.map fun s => (s.1.keyword, s.2.2))
  | [], c, links, h, _ => ⟨c, rfl, by simpa using h⟩
  | s :: steps, c, links, h, hs => by
    obtain ⟨c₁, hc₁, hinv₁⟩ := addCondition_of_rendered lit h s.2.1 s.1.keyword s.2.2
      (hs s (List.mem_cons_self s steps))
    obtain ⟨c', hc', hinv'⟩ := chain_of_rendered lit steps c₁ _ hinv₁
      fun t ht => hs t (List.mem_cons_of_mem s ht)
    refine ⟨c', ?_, by simpa using hinv'⟩
    simp only [List.map_cons, chain, Option.some_bind, call_plain, hc₁]
    exact hc'

/-- Claim C1. When the configuration given to `C` renders to `first` and the
configuration of every plain continuation (And, Or, Xor, Not, AndNot) renders,
`Build` on the chain returns a nil error and the text `first` followed, for each
continuation in order, by a space, its keyword, a space and its rendered text. -/
theorem Build_valid_chain (lit : Option Value → String × error) (c0 : Option ConditionConfig)
    (first : String) (steps : List (Operator × Option ConditionConfig × String))
    (h0 : NewCondition lit c0 = (first, none))
    (hs : ∀ s ∈ steps, NewCondition lit s.2.1 = (s.2.2, none)) :
    (chain lit (C lit c0) (steps.map fun s => Continuation.plain s.1 s.2.1)).bind
        ConditionBuilder.Build =
      some (chainText first (steps.map fun s => (s.1.keyword, s.2.2)), none) := by
  obtain ⟨c, hc, hinv⟩ := C_of_rendered lit c0 first h0
  obtain ⟨c', hc', hinv'⟩ := chain_of_rendered lit steps c _ hinv hs
  rw [hc, hc', Option.some_bind]
  exact Build_of_ChainInv hinv'

/-- Witness for C1: the chain of a.x = 1, And b.y = 2, Or c.z = 3. -/
theorem Build_valid_chain_witness :
    (chain cypherizeInterface (C cypherizeInterface (some (equalsConfig "a" "x" 1)))
        [.plain .And (some (equalsConfig "b" "y" 2)),
         .plain .Or (some (equalsConfig "c" "z" 3))]).bind ConditionBuilder.Build =
      some (chainText "a.x = 1" [("AND", "b.y = 2"), ("OR", "c.z = 3")], none) ∧
    chainText "a.x = 1" [("AND", "b.y = 2"), ("OR", "c.z = 3")] =
      "a.x = 1 AND b.y = 2 OR c.z = 3" :=
  ⟨Build_valid_chain cypherizeInterface (some (equalsConfig "a" "x" 1)) "a.x = 1"
      [(.And, some (equalsConfig "b" "y" 2), "b.y = 2"),
       (.Or, some (equalsConfig "c" "z" 3), "c.z = 3")]
      (by decide) (by decide), by decide⟩

/-- Claim C2. If the configuration given to `C` does not render, or the
configuration of a plain continuation does not render when the continuation is
applied to a chain without errors, then `Build` on the final chain returns the
empty text and a non-nil error, whatever continuations follow. -/
theorem Build_after_failed_render (lit : Option Value → String × error)
    (c0 : Option ConditionConfig) (pre post : List Continuation) :
    ((NewCondition lit c0).2 ≠ none →
      ∃ e, (chain lit (C lit c0) post).bind ConditionBuilder.Build = some ("", some e)) ∧
    (∀ (b : ConditionBuilder) (op : Operator) (cfg : Option ConditionConfig),
      chain lit (C lit c0) pre = some b → b.hasErrors = false →
      (NewCondition lit cfg).2 ≠ none →
      ∃ e, (chain lit (C lit c0) (pre ++ Continuation.plain op cfg :: post)).bind
        ConditionBuilder.Build = some ("", some e)) := by
  constructor
  · intro hfail
    obtain ⟨err, herr⟩ := Option.ne_none_iff_exists'.mp hfail
    have hC : C lit c0 =
        some ((ConditionBuilder.mk none none none [] []).addError (some err)) := by
      unfold C
      cases hn : NewCondition lit c0 with
      | mk t e =>
        rw [hn] at herr
        simp only at herr
        subst herr
        rfl
    obtain ⟨hhas, hbuild⟩ := Build_addError_of_no_errors
      (ConditionBuilder.mk none none none [] []) err rfl
    rw [hC, chain_of_hasErrors lit _ hhas, Option.some_bind, hbuild]
    exact ⟨_, rfl⟩
  · intro b op cfg hpre hno hfail
    obtain ⟨err, herr⟩ := Option.ne_none_iff_exists'.mp hfail
    have hcall : Continuation.call lit b (.plain op cfg) = some (b.addError (some err)) := by
      rw [call_plain]
      unfold ConditionBuilder.addCondition
      cases hn : NewCondition lit cfg with
      | mk t e =>
        rw [hn] at herr
        simp only at herr
        subst herr
        simp [hno]
    obtain ⟨hhas, hbuild⟩ := Build_addError_of_no_errors b err hno
    rw [chain_append, hpre]
    simp only [chain, Option.some_bind, hcall]
    rw [chain_of_hasErrors lit _ hhas, Option.some_bind, hbuild]
    exact ⟨_, rfl⟩

/-- Witness for C2: an empty configuration given to `C`, and an empty
configuration given to And after two valid links, each followed by a valid Or. -/
theorem Build_after_failed_render_witness :
    (∃ e, (chain cypherizeInterface (C cypherizeInterface (some {}))
        [.plain .Or (some (equalsConfig "c" "z" 3))]).bind ConditionBuilder.Build =
      some ("", some e)) ∧
    (∃ e, (chain cypherizeInterface (C cypherizeInterface (some (equalsConfig "a" "x" 1)))
        ([.plain .And (some (equalsConfig "b" "y" 2))] ++
          .plain .And (some {}) :: [.plain .Or (some (equalsConfig "c" "z" 3))])).bind
        ConditionBuilder.Build = some ("", some e)) :=
  ⟨(Build_after_failed_render cypherizeInterface (some {}) []
      [.plain .Or (some (equalsConfig "c" "z" 3))]).1 (by decide),
   (Build_after_failed_render cypherizeInterface (some (equalsConfig "a" "x" 1))
      [.plain .And (some (equalsConfig "b" "y" 2))]
      [.plain .Or (some (equalsConfig "c" "z" 3))]).2 _ .And (some {}) rfl (by decide)
      (by decide)⟩

/-! ## Negation and the field function -/

/-- Without negation a condition function wraps the base text: the name, or
the name, a dot and the field. -/
theorem ToString_condition_function (lit : Option Value → String × error)
    (cfg : ConditionConfig)
    (hid : ¬ (cfg.Name = "" ∧ cfg.Field = "" ∧ cfg.Label = "" ∧
              cfg.FieldManipulationFunction = ""))
    (hreach : cfg.Field ≠ "" ∨ cfg.Label = "")
    (hcf : cfg.ConditionFunction ≠ "") (hop : cfg.ConditionOperator = "")
    (hfmf : cfg.FieldManipulationFunction = "") (hneg : cfg.NegateCondition = false) :
    cfg.ToString lit =
      (cfg.ConditionFunction ++ "(" ++
        (if cfg.Field ≠ "" then cfg.Name ++ "." ++ cfg.Field else cfg.Name) ++ ")", none) := by
  have hnot3 : ¬ (cfg.Field ≠ "" ∧ cfg.Label ≠ "" ∧ cfg.FieldManipulationFunction ≠ "") :=
    fun h => h.2.2 hfmf
  rw [ToString_reaches_operators lit cfg hid hnot3 hreach]
  simp [ConditionConfig.ToString.operators, hcf, hop, hfmf, hneg]

/-- Claim C11, the code at the failing input. Name "Tom" with the condition
function "exists" and negation satisfies the conditions of the claim, and the
code returns "NOT exists(om)", not "NOT exists(Tom)": the cutset trim removes
the leading T of the name together with the negation marker. -/
theorem ToString_negated_function_at_Tom :
    negatedFunctionConfig.ConditionFunction ≠ "" ∧
    negatedFunctionConfig.ConditionOperator = "" ∧
    negatedFunctionConfig.FieldManipulationFunction = "" ∧
    negatedFunctionConfig.Field = "" ∧ negatedFunctionConfig.Label = "" ∧
    negatedFunctionConfig.NegateCondition = true ∧
    negatedFunctionConfig.ToString cypherizeInterface = ("NOT exists(om)", none) ∧
    negatedFunctionConfig.ToString cypherizeInterface ≠
      ("NOT " ++ negatedFunctionConfig.ConditionFunction ++ "(" ++
        negatedFunctionConfig.Name ++ ")", none) := by
  decide

/-- Claim C12, the code at the failing input. Name "a", Field "x", field
function "toLower", operator "=" and Check 1 satisfy the conditions of the claim,
and the code returns "a.xtoLower(a.x) = 1", not "toLower(a.x) = 1": the wrapped
text is appended to the base text instead of replacing it. -/
theorem ToString_field_function_at_toLower :
    fieldFunctionConfig.FieldManipulationFunction ≠ "" ∧
    fieldFunctionConfig.Field ≠ "" ∧ fieldFunctionConfig.Label = "" ∧
    fieldFunctionConfig.NegateCondition = false ∧
    fieldFunctionConfig.ConditionFunction = "" ∧
    fieldFunctionConfig.ConditionOperator ≠ "" ∧
    fieldFunctionConfig.ConditionOperator ≠ InOperator ∧
    fieldFunctionConfig.Check = some (.int 1) ∧
    cypherizeInterface (some (.int 1)) = ("1", none) ∧
    fieldFunctionConfig.ToString cypherizeInterface = ("a.xtoLower(a.x) = 1", none) ∧
    fieldFunctionConfig.ToString cypherizeInterface ≠
      (fieldFunctionConfig.FieldManipulationFunction ++ "(" ++ fieldFunctionConfig.Name ++
        "." ++ fieldFunctionConfig.Field ++ ")" ++ " " ++
        fieldFunctionConfig.ConditionOperator ++ " " ++ "1", none) := by
  decide

/-- Claim C13, the code at the failing input. Name "a" and Label "Person" with
negation render to "a:Person" with a nil error: the label branch returns without
the negation marker. -/
theorem ToString_negated_label_at_Person :
    negatedLabelConfig.NegateCondition = true ∧
    negatedLabelConfig.ToString cypherizeInterface = ("a:Person", none) ∧
    ¬ ("NOT ".data <+: (negatedLabelConfig.ToString cypherizeInterface).1.data) := by
  decide

/-- The value checks, when they succeed, extend the text built so far. -/
theorem checks_extends (lit : Option Value → String × error) (cfg : ConditionConfig)
    (q text : String) (h : ConditionConfig.ToString.checks lit cfg q = (text, none)) :
    ∃ rest, text = q ++ rest := by
  unfold ConditionConfig.ToString.checks at h
  split at h
  · split at h
    · simp [errors.New] at h
    · split at h
      · simp [errors.New] at h
      · split at h
        · simp [errors.New] at h
        · split at h
          · simp at h
          · exact ⟨_, (Prod.mk.inj h).1.symm⟩
  · split at h
    · split at h
      · simp at h
      · exact ⟨_, (Prod.mk.inj h).1.symm⟩
    · split at h
      · exact ⟨_, (Prod.mk.inj h).1.symm⟩
      · simp [errors.New] at h

/-- A negated configuration that is not short-circuited by a label and renders
begins with the negation marker. -/
theorem ToString_negated_begins_with_NOT (lit : Option Value → String × error)
    (cfg : ConditionConfig) (text : String)
    (hreach : cfg.Field ≠ "" ∨ cfg.Label = "")
    (hneg : cfg.NegateCondition = true) (h : cfg.ToString lit = (text, none)) :
    ∃ rest, text = "NOT " ++ rest := by
  by_cases hid : cfg.Name = "" ∧ cfg.Field = "" ∧ cfg.Label = "" ∧
      cfg.FieldManipulationFunction = ""
  · simp [ConditionConfig.ToString, hid, errors.New] at h
  by_cases hnot3 : cfg.Field ≠ "" ∧ cfg.Label ≠ "" ∧ cfg.FieldManipulationFunction ≠ ""
  · simp [ConditionConfig.ToString, hnot3, errors.New] at h
  rw [ToString_reaches_operators lit cfg hid hnot3 hreach] at h
  simp only [hneg, if_true] at h
  unfold ConditionConfig.ToString.operators at h
  simp only at h
  split at h
  · simp [errors.New] at h
  · split at h
    · simp [errors.New] at h
    · split at h
      · obtain ⟨rest, hrest⟩ := checks_extends lit cfg _ text h
        split at hrest
        · exact ⟨_, by rw [hrest]; simp only [String.append_assoc]; rfl⟩
        · exact ⟨_, by rw [hrest]; simp only [String.append_assoc]; rfl⟩
      · split at h
        · exact ⟨_, by rw [← (Prod.mk.inj h).1]; simp only [String.append_assoc]; rfl⟩
        · obtain ⟨rest, hrest⟩ := checks_extends lit cfg _ text h
          split at hrest
          · exact ⟨_, by rw [hrest]; simp only [String.append_assoc]; rfl⟩
          · exact ⟨_, by rw [hrest]; simp only [String.append_assoc]; rfl⟩

/-! ## Errors of the chain -/

/-- The first loop of `Build` on errors that are not nil appends every message
and a semicolon. -/
theorem errLoop_messages :
    ∀ (es : List GoError) (errStr : String),
      ConditionBuilder.Build.errLoop (es.map some) errStr =
        some (errStr ++ String.join (es.map fun e => e.msg ++ ";"))
  | [], errStr => by simp [ConditionBuilder.Build.errLoop, String.join_nil_eq]
  | e :: es, errStr => by
    simp only [List.map_cons, ConditionBuilder.Build.errLoop, errLoop_messages es,
      String.join_cons_eq, String.append_assoc]

/-- On a builder whose error list holds the errors `es`, at least one, `Build`
returns the empty text and the count and the messages joined by semicolons. -/
theorem Build_of_error_list (c : ConditionBuilder) (es : List GoError) (hne : es ≠ [])
    (h : c.errors = some (es.map some)) :
    c.Build = some ("", some ⟨"(" ++ Nat.repr es.length ++ ") errors occurred: " ++
      ";".intercalate (es.map fun e => e.msg)⟩) := by
  have hhas : c.hasErrors = true := by
    cases es with
    | nil => exact absurd rfl hne
    | cons e es => simp [ConditionBuilder.hasErrors, h]
  have hms : es.map (fun e => e.msg) ≠ [] := by simpa using hne
  have hjoin := String.join_map_sep_eq_intercalate ";" (es.map fun e => e.msg) hms
  simp only [List.map_map, Function.comp_def] at hjoin
  unfold ConditionBuilder.Build
  rw [if_pos hhas, h]
  simp only [Option.getD_some, errLoop_messages, String.empty_append, hjoin,
    strings.TrimSuffix_append, List.length_map]

/-- Recording an error changes the error list only. -/
theorem addError_frame (c : ConditionBuilder) (e : error) :
    (c.addError e).Start = c.Start ∧ (c.addError e).Current = c.Current ∧
      (c.addError e).operatorNodes = c.operatorNodes ∧
      (c.addError e).conditionNodes = c.conditionNodes := by
  unfold ConditionBuilder.addError
  cases c.errors <;> exact ⟨rfl, rfl, rfl, rfl⟩

/-- The first error recorded on a builder without errors is the whole error
list. -/
theorem addError_of_no_errors (c : ConditionBuilder) (e : error)
    (h : c.hasErrors = false) : (c.addError e).errors = some [e] := by
  unfold ConditionBuilder.addError
  cases he : c.errors with
  | none => rfl
  | some es =>
    cases es with
    | nil => rfl
    | cons e es => simp [ConditionBuilder.hasErrors, he] at h

/-- Claim C17. On a builder whose error list holds the errors `es`, at least
one, `Build` returns the empty text and an error whose message is "(", the number
of errors in decimal, ") errors occurred: " and the messages in order, separated
by single semicolons. -/
theorem Build_aggregated_error (c : ConditionBuilder) (es : List GoError) (hne : es ≠ [])
    (h : c.errors = some (es.map some)) :
    c.Build = some ("", some ⟨"(" ++ Nat.repr es.length ++ ") errors occurred: " ++
      ";".intercalate (es.map fun e => e.msg)⟩) :=
  Build_of_error_list c es hne h

/-- Witness for C17: three errors, one message ending in a semicolon and one
empty, on a builder whose chain holds nothing. -/
theorem Build_aggregated_error_witness :
    (ConditionBuilder.mk none none (some [some ⟨"a;"⟩, some ⟨""⟩, some ⟨"b"⟩]) [] []).Build =
      some ("", some ⟨"(" ++ Nat.repr 3 ++ ") errors occurred: " ++
        ";".intercalate ["a;", "", "b"]⟩) ∧
    "(" ++ Nat.repr 3 ++ ") errors occurred: " ++ ";".intercalate ["a;", "", "b"] =
      "(3) errors occurred: a;;;b" :=
  ⟨Build_aggregated_error (ConditionBuilder.mk none none
      (some [some ⟨"a;"⟩, some ⟨""⟩, some ⟨"b"⟩]) [] []) [⟨"a;"⟩, ⟨""⟩, ⟨"b"⟩]
      (by decide) rfl, by decide⟩

/-- Claim C15. On a builder without errors a nested continuation with an error
that is not nil adds no node, leaves Start and Current as they are and records
the error, so that `Build` returns the empty text and the message
"(1) errors occurred: " followed by the message of the error. -/
theorem nested_error_recorded (lit : Option Value → String × error) (b : ConditionBuilder)
    (op : Operator) (query : WhereQuery) (e : GoError) (hno : b.hasErrors = false) :
    ∃ b', Continuation.call lit b (.nested op query (some e)) = some b' ∧
      b'.Start = b.Start ∧ b'.Current = b.Current ∧
      b'.operatorNodes = b.operatorNodes ∧ b'.conditionNodes = b.conditionNodes ∧
      b'.errors = some [some e] ∧
      b'.Build = some ("", some ⟨"(1) errors occurred: " ++ e.msg⟩) := by
  obtain ⟨h1, h2, h3, h4⟩ := addError_frame b (some e)
  refine ⟨b.addError (some e), ?_, h1, h2, h3, h4, addError_of_no_errors b _ hno,
    (Build_addError_of_no_errors b e hno).2⟩
  rw [call_nested]
  simp [ConditionBuilder.addNestedCondition, hno]

/-- Witness for C15: AndNested with the error "boom" after one valid link. -/
theorem nested_error_recorded_witness :
    ∃ b', Continuation.call cypherizeInterface
        (ConditionBuilder.mk (some 0) (some 0) none [operatorNode.mk true "" (some 0)]
          [conditionNode.mk "a.x = 1" none])
        (.nested .And "b.y = 2" (some ⟨"boom"⟩)) = some b' ∧
      b'.Start = some 0 ∧ b'.Current = some 0 ∧
      b'.operatorNodes = [operatorNode.mk true "" (some 0)] ∧
      b'.conditionNodes = [conditionNode.mk "a.x = 1" none] ∧
      b'.errors = some [some ⟨"boom"⟩] ∧
      b'.Build = some ("", some ⟨"(1) errors occurred: " ++ "boom"⟩) :=
  nested_error_recorded cypherizeInterface
    (ConditionBuilder.mk (some 0) (some 0) none [operatorNode.mk true "" (some 0)]
      [conditionNode.mk "a.x = 1" none]) .And "b.y = 2" ⟨"boom"⟩ (by decide)

/-- Claim C19. On a builder whose error list is not empty every continuation,
plain or nested, with any arguments, returns the builder as it is: the error
list, Start, Current and the nodes are unchanged. -/
theorem continuation_after_error (lit : Option Value → String × error)
    (c : ConditionBuilder) (es : List error) (h : c.errors = some es) (hne : es ≠ [])
    (op : Continuation) : Continuation.call lit c op = some c := by
  apply call_of_hasErrors
  cases es with
  | nil => exact absurd rfl hne
  | cons e es => simp [ConditionBuilder.hasErrors, h]

/-- Witness for C19: a nested continuation with a new error on a builder that
holds one error. -/
theorem continuation_after_error_witness :
    Continuation.call cypherizeInterface
        (ConditionBuilder.mk none none (some [some ⟨"first"⟩]) [] [])
        (.nested .Or "q" (some ⟨"second"⟩)) =
      some (ConditionBuilder.mk none none (some [some ⟨"first"⟩]) [] []) :=
  continuation_after_error cypherizeInterface
    (ConditionBuilder.mk none none (some [some ⟨"first"⟩]) [] []) [some ⟨"first"⟩] rfl
    (by decide) (.nested .Or "q" (some ⟨"second"⟩))

/-! ## No text next to an error -/

theorem sliceLoop_error_text (lit : Option Value → String × error) :
    ∀ (vs : List (Option Value)) (q text : String) (e : GoError),
      ConditionConfig.ToString.sliceLoop lit vs q = (text, some e) → text = ""
  | [], q, text, e, h => by simp [ConditionConfig.ToString.sliceLoop] at h
  | v :: vs, q, text, e, h => by
    unfold ConditionConfig.ToString.sliceLoop at h
    split at h
    · exact (Prod.mk.inj h).1.symm
    · exact sliceLoop_error_text lit vs _ text e h

theorem checks_error_text (lit : Option Value → String × error) (cfg : ConditionConfig)
    (q text : String) (e : GoError)
    (h : ConditionConfig.ToString.checks lit cfg q = (text, some e)) : text = "" := by
  unfold ConditionConfig.ToString.checks at h
  split at h
  · split at h
    · exact (Prod.mk.inj h).1.symm
    · split at h
      · exact (Prod.mk.inj h).1.symm
      · split at h
        · exact (Prod.mk.inj h).1.symm
        · split at h
          · exact (Prod.mk.inj h).1.symm
          · simp at h
  · split at h
    · split at h
      · exact (Prod.mk.inj h).1.symm
      · simp at h
    · split at h
      · simp at h
      · exact (Prod.mk.inj h).1.symm

theorem operators_error_text (lit : Option Value → String × error) (cfg : ConditionConfig)
    (q text : String) (e : GoError)
    (h : ConditionConfig.ToString.operators lit cfg q = (text, some e)) : text = "" := by
  unfold ConditionConfig.ToString.operators at h
  simp only at h
  split at h
  · exact (Prod.mk.inj h).1.symm
  · split at h
    · exact (Prod.mk.inj h).1.symm
    · split at h
      · exact checks_error_text lit cfg _ text e h
      · split at h
        · split at h <;> simp at h
        · exact checks_error_text lit cfg _ text e h

theorem ToString_error_text (lit : Option Value → String × error) (cfg : ConditionConfig)
    (text : String) (e : GoError) (h : cfg.ToString lit = (text, some e)) : text = "" := by
  unfold ConditionConfig.ToString at h
  simp only at h
  split at h
  · exact (Prod.mk.inj h).1.symm
  · split at h
    · exact (Prod.mk.inj h).1.symm
    · split at h
      · exact operators_error_text lit cfg _ text e h
      · split at h
        · simp at h
        · exact operators_error_text lit cfg _ text e h

theorem NewCondition_error_text (lit : Option Value → String × error)
    (condition : Option ConditionConfig) (text : String) (e : GoError)
    (h : NewCondition lit condition = (text, some e)) : text = "" := by
  unfold NewCondition at h
  split at h
  · exact (Prod.mk.inj h).1.symm
  · split at h
    · exact (Prod.mk.inj h).1.symm
    · simp at h

theorem Build_error_text (c : ConditionBuilder) (text : WhereQuery) (e : GoError)
    (h : c.Build = some (text, some e)) : text = "" := by
  unfold ConditionBuilder.Build at h
  split at h
  · split at h
    · simp at h
    · exact (Prod.mk.inj (Option.some.inj h)).1.symm
  · split at h
    · exact (Prod.mk.inj (Option.some.inj h)).1.symm
    · split at h
      · simp at h
      · simp at h

/-- Claim C18. Whenever `ToString`, `NewCondition` (also on a nil configuration)
or `Build` returns an error that is not nil, the text returned with it is
empty. -/
theorem no_text_with_error (lit : Option Value → String × error) (cfg : ConditionConfig)
    (condition : Option ConditionConfig) (c : ConditionBuilder) :
    ((cfg.ToString lit).2 ≠ none → (cfg.ToString lit).1 = "") ∧
    ((NewCondition lit condition).2 ≠ none → (NewCondition lit condition).1 = "") ∧
    (∀ r, c.Build = some r → r.2 ≠ none → r.1 = "") := by
  refine ⟨?_, ?_, ?_⟩
  · intro h
    obtain ⟨e, he⟩ := Option.ne_none_iff_exists'.mp h
    exact ToString_error_text lit cfg _ e (Prod.ext rfl he)
  · intro h
    obtain ⟨e, he⟩ := Option.ne_none_iff_exists'.mp h
    exact NewCondition_error_text lit condition _ e (Prod.ext rfl he)
  · intro r hr h
    obtain ⟨e, he⟩ := Option.ne_none_iff_exists'.mp h
    exact Build_error_text c r.1 e (by rw [hr, ← he])

/-- Witness for C18: a comparison without a value, a nil configuration and a
builder that holds one error. -/
theorem no_text_with_error_witness :
    (({ Name := "a", Field := "age", ConditionOperator := ">" } :
        ConditionConfig).ToString cypherizeInterface).1 = "" ∧
    (NewCondition cypherizeInterface none).1 = "" ∧
    (("", some ⟨"(1) errors occurred: boom"⟩) : WhereQuery × error).1 = "" :=
  have h := no_text_with_error cypherizeInterface
    { Name := "a", Field := "age", ConditionOperator := ">" } none
    (ConditionBuilder.mk none none (some [some ⟨"boom"⟩]) [] [])
  ⟨h.1 (by decide), h.2.1 (by decide), h.2.2 _ (by decide) (by decide)⟩

/-! ## Reachable builders -/

theorem String.join_append_eq (xs ys : List String) :
    String.join (xs ++ ys) = String.join xs ++ String.join ys := by
  apply String.ext
  simp [String.join_eq, String.data_append]

/-- The text of a chain with one more link at the end. -/
theorem chainText_append (first : String) (tail : List (String × String))
    (kw text : String) :
    chainText first (tail ++ [(kw, text)]) = chainText first tail ++ " " ++ kw ++ " " ++ text := by
  simp only [chainText, List.map_append, List.map_cons, List.map_nil, String.join_append_eq,
    String.join_cons_eq, String.join_nil_eq, String.append_empty, String.append_assoc]

/-- The aggregated error is never the error of an empty chain. -/
theorem aggregated_ne_no_condition (m : String) :
    ("(1) errors occurred: " ++ m : String) ≠ "no condition defined" := by
  intro h
  have h1 := congrArg (fun s : String => s.data.head?) h
  have h2 : ("(1) errors occurred: " ++ m : String).data.head? = some '(' := by
    rw [String.data_append]
    rfl
  have h3 : ("no condition defined" : String).data.head? = some 'n' := rfl
  simp only [h2, h3] at h1
  exact absurd h1 (by decide)

/-- A builder that has errors does not build to a text with a nil error. -/
theorem Build_of_hasErrors_ne (c : ConditionBuilder) (h : c.hasErrors = true)
    (t : WhereQuery) : c.Build ≠ some (t, none) := by
  unfold ConditionBuilder.Build
  rw [if_pos h]
  split <;> simp

/-- On a builder that holds exactly one error `Build` returns the empty text and
the count 1 with the message of the error. -/
theorem Build_of_single_error (c : ConditionBuilder) (e : GoError)
    (h : c.errors = some [some e]) :
    c.Build = some ("", some ⟨"(1) errors occurred: " ++ e.msg⟩) := by
  have h1 := Build_of_error_list c [e] (by simp) h
  have h2 : ("(" ++ Nat.repr 1 ++ ") errors occurred: " : String) =
      "(1) errors occurred: " := by decide
  simp only [List.length_singleton, h2, List.map, String.intercalate,
    String.intercalate.go] at h1
  exact h1

/-- A continuation that brings an error into a builder without errors records
that error and nothing else. -/
theorem call_of_failure (lit : Option Value → String × error) (b : ConditionBuilder)
    (op : Continuation) (e : GoError) (hno : b.hasErrors = false)
    (hfail : op.failure lit = some e) :
    Continuation.call lit b op = some (b.addError (some e)) := by
  cases op with
  | plain op cfg =>
    rw [call_plain]
    unfold ConditionBuilder.addCondition
    cases hn : NewCondition lit cfg with
    | mk t err =>
      simp only [Continuation.failure, hn] at hfail
      subst hfail
      simp [hno]
  | nested op query err =>
    rw [call_nested]
    simp only [Continuation.failure] at hfail
    subst hfail
    simp [ConditionBuilder.addNestedCondition, hno]

/-- The function `C` on a configuration that does not render returns a builder
that holds the rendering error and no node. -/
theorem C_of_failure (lit : Option Value → String × error) (c0 : Option ConditionConfig)
    (e : GoError) (hfail : (NewCondition lit c0).2 = some e) :
    C lit c0 = some (ConditionBuilder.mk none none (some [some e]) [] []) := by
  unfold C
  cases hn : NewCondition lit c0 with
  | mk t err =>
    rw [hn] at hfail
    simp only at hfail
    subst hfail
    rfl

/-- Every chain started with `C` returns a builder that either holds exactly one
error or is well-shaped with the rendering of the first configuration as its
first link. -/
theorem chain_reachable_first (lit : Option Value → String × error)
    (c0 : Option ConditionConfig) (ops : List Continuation) :
    ∃ b, chain lit (C lit c0) ops = some b ∧
      ((∃ e, b.errors = some [some e]) ∨
        ∃ first tail, NewCondition lit c0 = (first, none) ∧
          ChainInv b (("", first) :: tail)) := by
  have step : ∀ (ops : List Continuation) (b : ConditionBuilder),
      ((∃ e, b.errors = some [some e]) ∨
        ∃ first tail, NewCondition lit c0 = (first, none) ∧
          ChainInv b (("", first) :: tail)) →
      ∃ b', chain lit (some b) ops = some b' ∧
        ((∃ e, b'.errors = some [some e]) ∨
          ∃ first tail, NewCondition lit c0 = (first, none) ∧
            ChainInv b' (("", first) :: tail)) := by
    intro ops
    induction ops with
    | nil => exact fun b h => ⟨b, rfl, h⟩
    | cons op ops ih =>
      intro b h
      have hcall : ∃ b₁, Continuation.call lit b op = some b₁ ∧
          ((∃ e, b₁.errors = some [some e]) ∨
            ∃ first tail, NewCondition lit c0 = (first, none) ∧
              ChainInv b₁ (("", first) :: tail)) := by
        rcases h with ⟨e, he⟩ | ⟨first, tail, hfirst, hinv⟩
        · have hhas : b.hasErrors = true := by simp [ConditionBuilder.hasErrors, he]
          exact ⟨b, call_of_hasErrors lit b hhas op, Or.inl ⟨e, he⟩⟩
        · have hno : b.hasErrors = false := by
            simp [ConditionBuilder.hasErrors, hinv.errors_nil]
          cases hf : op.failure lit with
          | some e =>
            exact ⟨_, call_of_failure lit b op e hno hf,
              Or.inl ⟨e, addError_of_no_errors b _ hno⟩⟩
          | none =>
            cases op with
            | plain op cfg =>
              obtain ⟨b₁, hb₁, hinv₁⟩ := addCondition_of_rendered lit hinv cfg op.keyword
                (NewCondition lit cfg).1 (Prod.ext rfl hf)
              exact ⟨b₁, by rw [call_plain, hb₁], Or.inr ⟨first, _, hfirst, hinv₁⟩⟩
            | nested op query err =>
              simp only [Continuation.failure] at hf
              subst hf
              obtain ⟨b₁, hb₁, hinv₁⟩ := addNestedCondition_of_nil b hinv query op.keyword
              exact ⟨b₁, by rw [call_nested, hb₁], Or.inr ⟨first, _, hfirst, hinv₁⟩⟩
      obtain ⟨b₁, hb₁, h₁⟩ := hcall
      obtain ⟨b', hb', h'⟩ := ih b₁ h₁
      exact ⟨b', by simp only [chain, Option.some_bind, hb₁, hb'], h'⟩
  have hC : ∃ b, C lit c0 = some b ∧
      ((∃ e, b.errors = some [some e]) ∨
        ∃ first tail, NewCondition lit c0 = (first, none) ∧
          ChainInv b (("", first) :: tail)) := by
    cases hn : (NewCondition lit c0).2 with
    | some e => exact ⟨_, C_of_failure lit c0 e hn, Or.inl ⟨e, rfl⟩⟩
    | none =>
      obtain ⟨b, hb, hinv⟩ := C_of_rendered lit c0 (NewCondition lit c0).1 (Prod.ext rfl hn)
      exact ⟨b, hb, Or.inr ⟨_, [], Prod.ext rfl hn, hinv⟩⟩
  obtain ⟨b, hb, h⟩ := hC
  rw [hb]
  exact step ops b h

/-- Claim C14. When `Build` on a builder obtained from `C` and continuations
returns the text `t` with a nil error, then after a nested continuation with the
query `q` and a nil error `Build` returns a nil error and `t`, a space, the
keyword of the continuation, a space and `q` in one pair of parentheses. -/
theorem nested_link_appended (lit : Option Value → String × error)
    (c0 : Option ConditionConfig) (ops : List Continuation) (b : ConditionBuilder)
    (t : WhereQuery) (op : Operator) (q : WhereQuery)
    (hb : chain lit (C lit c0) ops = some b) (hbuild : b.Build = some (t, none)) :
    (Continuation.call lit b (.nested op q none)).bind ConditionBuilder.Build =
      some (t ++ " " ++ op.keyword ++ " (" ++ q ++ ")", none) := by
  obtain ⟨b', hb', h⟩ := chain_reachable lit c0 ops
  rw [hb] at hb'
  obtain rfl := Option.some.inj hb'
  rcases h with h | ⟨links, hinv⟩
  · exact absurd hbuild (Build_of_hasErrors_ne b h t)
  · cases links with
    | nil => exact absurd hinv.nonempty (by simp)
    | cons l tail =>
      have ht := @Build_of_ChainInv b l.1 l.2 tail hinv
      rw [hbuild] at ht
      have ht' : t = chainText l.2 tail := (Prod.mk.inj (Option.some.inj ht)).1
      obtain ⟨b₁, hb₁, hinv₁⟩ := addNestedCondition_of_nil b hinv q op.keyword
      have hparen : ∀ x y : String, x ++ (" " ++ ("(" ++ y)) = x ++ (" (" ++ y) := by
        intro x y
        rw [← String.append_assoc " "]
        rfl
      rw [call_nested, hb₁, Option.some_bind,
        @Build_of_ChainInv b₁ l.1 l.2 (tail ++ [(op.keyword, "(" ++ q ++ ")")]) hinv₁,
        chainText_append, ← ht']
      simp only [String.append_assoc, hparen]

/-- Witness for C14: AndNested with the text of a sub-chain on the chain of
a.x = 1. -/
theorem nested_link_appended_witness :
    (Continuation.call cypherizeInterface
        (ConditionBuilder.mk (some 0) (some 0) none [operatorNode.mk true "" (some 0)]
          [conditionNode.mk "a.x = 1" none])
        (.nested .And "b.y = 2 OR c.z = 3" none)).bind ConditionBuilder.Build =
      some ("a.x = 1" ++ " " ++ Operator.And.keyword ++ " (" ++ "b.y = 2 OR c.z = 3" ++ ")",
        none) ∧
    ("a.x = 1" ++ " " ++ Operator.And.keyword ++ " (" ++ "b.y = 2 OR c.z = 3" ++ ")" : String) =
      "a.x = 1 AND (b.y = 2 OR c.z = 3)" :=
  ⟨nested_link_appended cypherizeInterface (some (equalsConfig "a" "x" 1)) []
      (ConditionBuilder.mk (some 0) (some 0) none [operatorNode.mk true "" (some 0)]
        [conditionNode.mk "a.x = 1" none])
      "a.x = 1" .And "b.y = 2 OR c.z = 3" (by decide) (by decide), by decide⟩

/-- Claim C16 fails as stated. After a valid first link, And with an empty
configuration and Or with a nil configuration both fail to render (two
failures), yet the error of `Build` reports the count 1 and the first message
only. -/
theorem Build_two_failures_counterexample :
    (NewCondition cypherizeInterface (some {})).2 =
      some ⟨"all of Name, Field, Function, and Label must be specified"⟩ ∧
    (NewCondition cypherizeInterface none).2 = some ⟨"condition can not be nil"⟩ ∧
    (chain cypherizeInterface (C cypherizeInterface (some (equalsConfig "a" "x" 1)))
        [.plain .And (some {}), .plain .Or none]).bind ConditionBuilder.Build =
      some ("", some ⟨"(1) errors occurred: " ++
        "all of Name, Field, Function, and Label must be specified"⟩) ∧
    (chain cypherizeInterface (C cypherizeInterface (some (equalsConfig "a" "x" 1)))
        [.plain .And (some {}), .plain .Or none]).bind ConditionBuilder.Build ≠
      some ("", some ⟨"(2) errors occurred: " ++
        "all of Name, Field, Function, and Label must be specified" ++ ";" ++
        "condition can not be nil"⟩) := by
  decide

/-- Claim C16, amended. The error returned by `Build` describes the first failure
only: when the configuration given to `C` does not render, or a continuation
brings an error (a configuration that does not render, or a nested error) into a
chain without errors, `Build` on the final chain returns the count 1 and the
message of that failure, whatever continuations follow. -/
theorem Build_reports_first_failure (lit : Option Value → String × error)
    (c0 : Option ConditionConfig) (pre post : List Continuation) :
    (∀ e, (NewCondition lit c0).2 = some e →
      (chain lit (C lit c0) post).bind ConditionBuilder.Build =
        some ("", some ⟨"(1) errors occurred: " ++ e.msg⟩)) ∧
    (∀ (b : ConditionBuilder) (op : Continuation) (e : GoError),
      chain lit (C lit c0) pre = some b → b.hasErrors = false →
      op.failure lit = some e →
      (chain lit (C lit c0) (pre ++ op :: post)).bind ConditionBuilder.Build =
        some ("", some ⟨"(1) errors occurred: " ++ e.msg⟩)) := by
  constructor
  · intro e hfail
    have hhas : (ConditionBuilder.mk none none (some [some e]) [] []).hasErrors = true := rfl
    rw [C_of_failure lit c0 e hfail, chain_of_hasErrors lit _ hhas, Option.some_bind]
    exact Build_of_single_error _ e rfl
  · intro b op e hpre hno hfail
    have herrs := addError_of_no_errors b (some e) hno
    have hhas : (b.addError (some e)).hasErrors = true := hasErrors_addError b _
    rw [chain_append, hpre]
    simp only [chain, Option.some_bind, call_of_failure lit b op e hno hfail]
    rw [chain_of_hasErrors lit _ hhas, Option.some_bind]
    exact Build_of_single_error _ e herrs

/-- Witness for the amended C16: the chain of two failures, and a chain whose
first configuration is nil. -/
theorem Build_reports_first_failure_witness :
    (chain cypherizeInterface (C cypherizeInterface none)
        [.plain .And (some {})]).bind ConditionBuilder.Build =
      some ("", some ⟨"(1) errors occurred: " ++ "condition can not be nil"⟩) ∧
    (chain cypherizeInterface (C cypherizeInterface (some (equalsConfig "a" "x" 1)))
        ([] ++ .plain .And (some {}) :: [.plain .Or none])).bind ConditionBuilder.Build =
      some ("", some ⟨"(1) errors occurred: " ++
        "all of Name, Field, Function, and Label must be specified"⟩) :=
  ⟨(Build_reports_first_failure cypherizeInterface none [] [.plain .And (some {})]).1
      ⟨"condition can not be nil"⟩ (by decide),
   (Build_reports_first_failure cypherizeInterface (some (equalsConfig "a" "x" 1)) []
      [.plain .Or none]).2 _ (.plain .And (some {}))
      ⟨"all of Name, Field, Function, and Label must be specified"⟩ rfl (by decide)
      (by decide)⟩

/-- Claim C20. Every chain started with `C` returns a builder. Either it has
errors and every further sequence of continuations returns it as it is, so no
link is added after the error; or it has no errors and is well-shaped: the chain
is not empty, node 0 is the only one marked First and Current is the condition
node of the last link. `Build` on it returns, its error is never
"no condition defined", and a text returned with a nil error is the rendering of
the first configuration followed by the later links, so no keyword stands
before the first link. -/
theorem reachable_builder_invariant (lit : Option Value → String × error)
    (c0 : Option ConditionConfig) (ops : List Continuation) :
    ∃ b, chain lit (C lit c0) ops = some b ∧
      ((b.hasErrors = true ∧ ∀ post, chain lit (some b) post = some b) ∨
        (b.hasErrors = false ∧ ∃ links, ChainInv b links)) ∧
      ∃ r, b.Build = some r ∧ r.2 ≠ errors.New "no condition defined" ∧
        (r.2 = none → ∃ first tail,
          NewCondition lit c0 = (first, none) ∧ r.1 = chainText first tail) := by
  obtain ⟨b, hb, h⟩ := chain_reachable_first lit c0 ops
  refine ⟨b, hb, ?_⟩
  rcases h with ⟨e, he⟩ | ⟨first, tail, hfirst, hinv⟩
  · have hhas : b.hasErrors = true := by simp [ConditionBuilder.hasErrors, he]
    refine ⟨Or.inl ⟨hhas, chain_of_hasErrors lit b hhas⟩, _, Build_of_single_error b e he,
      ?_, ?_⟩
    · intro h
      simp only [errors.New, Option.some.injEq, GoError.mk.injEq] at h
      exact aggregated_ne_no_condition e.msg h
    · intro h
      simp at h
  · have hno : b.hasErrors = false := by simp [ConditionBuilder.hasErrors, hinv.errors_nil]
    refine ⟨Or.inr ⟨hno, _, hinv⟩, _, Build_of_ChainInv hinv, ?_, ?_⟩
    · simp [errors.New]
    · intro _
      exact ⟨first, tail, hfirst, rfl⟩

/-- Witness for C20: a chain with a valid link, a failing link and a further
valid link. -/
theorem reachable_builder_invariant_witness :
    ∃ b, chain cypherizeInterface (C cypherizeInterface (some (equalsConfig "a" "x" 1)))
        [.plain .And (some (equalsConfig "b" "y" 2)), .nested .Or "q" (some ⟨"boom"⟩),
         .plain .Xor (some (equalsConfig "c" "z" 3))] = some b ∧
      ((b.hasErrors = true ∧ ∀ post, chain cypherizeInterface (some b) post = some b) ∨
        (b.hasErrors = false ∧ ∃ links, ChainInv b links)) ∧
      ∃ r, b.Build = some r ∧ r.2 ≠ errors.New "no condition defined" ∧
        (r.2 = none → ∃ first tail,
          NewCondition cypherizeInterface (some (equalsConfig "a" "x" 1)) = (first, none) ∧
            r.1 = chainText first tail) :=
  reachable_builder_invariant cypherizeInterface (some (equalsConfig "a" "x" 1))
    [.plain .And (some (equalsConfig "b" "y" 2)), .nested .Or "q" (some ⟨"boom"⟩),
     .plain .Xor (some (equalsConfig "c" "z" 3))]

end CypherDSL
